import Mathlib

/-!
# show-tix-util: flattening ticketing transactions into accounting line items

A shallow embedding of `main.go`.  The program pages through a transactions
API, flattens customers / transactions / tickets into line items and writes
them as CSV records.

* Go `float32` is embedded exactly (sign, biased exponent and fraction of the
  IEEE-754 binary32 encoding, one NaN), with round-to-nearest-even
  multiplication and the `%.2f` rendering.
* `log.Fatalf` (process exit) is embedded as `none` / a fatal status.
* The HTTP endpoint is a function from the `page` query parameter to the
  outcome of the request.
-/

set_option linter.dupNamespace false

namespace ShowTix

/-! ## Go `float32` -/

/-- Go `float32` value.  A finite value carries its sign and the low 31 bits
of its IEEE-754 binary32 encoding (`code < 0x7F800000`): biased exponent
`code / 2^23`, fraction `code % 2^23`. -/
inductive Float32 where
  | nan
  | inf (neg : Bool)
  | finite (neg : Bool) (code : Fin 2139095040)
deriving DecidableEq, Repr

namespace Float32

/-- Integer significand of the finite value with encoding `code`. -/
def mant (code : Nat) : Nat :=
  if code / 8388608 = 0 then code % 8388608 else 8388608 + code % 8388608

/-- Exponent of the unit in the last place: the value is `mant * 2 ^ expo`. -/
def expo (code : Nat) : Int :=
  if code / 8388608 = 0 then -149 else ((code / 8388608 : Nat) : Int) - 150

/-- Index of the highest set bit of `m` (`0` for `m < 2`), by halving at most
`fuel` times. -/
def log2Aux : Nat → Nat → Nat
  | 0, _ => 0
  | fuel + 1, m => if m < 2 then 0 else log2Aux fuel (m / 2) + 1

/-- Index of the highest set bit of `m`: `2 ^ ilog2 m ≤ m < 2 ^ (ilog2 m + 1)`
for `m > 0`. -/
def ilog2 (m : Nat) : Nat := log2Aux m m

/-- Drop the low `sh` bits of `m`, rounding to nearest, ties to even. -/
def shiftRound (m sh : Nat) : Nat :=
  let q := m / 2 ^ sh
  let r := m % 2 ^ sh
  if 2 * r > 2 ^ sh ∨ (2 * r = 2 ^ sh ∧ q % 2 = 1) then q + 1 else q

/-- Encoding of the `float32` magnitude nearest to the exact value `m * 2^e`,
`m > 0` (ties to even, gradual underflow).  `q` is the exponent of the unit in
the last place of the result and `r` its integer significand (`r ≤ 2^24`); the
encoding is `(q + 149) * 2^23 + r`, which also covers the subnormal range
(`q = -149`, `r < 2^23`) and the carry `r = 2^24`. -/
def roundCode (m : Nat) (e : Int) : Nat :=
  let q : Int := max (e + (ilog2 m : Int) - 23) (-149)
  let r : Nat := if q ≤ e then m * 2 ^ (e - q).toNat else shiftRound m (q - e).toNat
  (q + 149).toNat * 8388608 + r

/-- Round the exact value `(-1)^neg * m * 2^e` to the nearest `float32`
(ties to even, gradual underflow, overflow to infinity). -/
def roundPack (neg : Bool) (m : Nat) (e : Int) : Float32 :=
  if m = 0 then finite neg 0
  else if h : roundCode m e < 2139095040 then finite neg ⟨roundCode m e, h⟩ else inf neg

/-- Go `x * y` on `float32`. -/
def mul : Float32 → Float32 → Float32
  | nan, _ => nan
  | _, nan => nan
  | inf s, inf t => inf (xor s t)
  | inf s, finite t c => if c.val = 0 then nan else inf (xor s t)
  | finite s c, inf t => if c.val = 0 then nan else inf (xor s t)
  | finite s c, finite t d =>
      roundPack (xor s t) (mant c.val * mant d.val) (expo c.val + expo d.val)

/-- Go `x == 0` on `float32`: true for both zeros, false for NaN. -/
def isZero : Float32 → Bool
  | finite _ c => c.val = 0
  | _ => false

/-- Order key: finite values and infinities are ordered like these integers. -/
def key : Float32 → Int
  | nan => 0
  | inf neg => if neg then -2139095040 else 2139095040
  | finite neg c => if neg then -(c.val : Int) else (c.val : Int)

/-- Go `x < y` on `float32` (false when either side is NaN). -/
def lt : Float32 → Float32 → Bool
  | nan, _ => false
  | _, nan => false
  | x, y => decide (key x < key y)

/-- The constant `0` as `float32`. -/
def zero : Float32 := finite false 0

/-- The constant `0.035` converted to `float32` (`0x3D0F5C29`, that is
`9395241 * 2^-28`). -/
def c035 : Float32 := finite false ⟨1024416809, by decide⟩

/-- The constant `-1` as `float32` (`0xBF800000`). -/
def negOne : Float32 := finite true ⟨1065353216, by decide⟩

/-- The constant `-1.5` as `float32` (`0xBFC00000`). -/
def negOneAndHalf : Float32 := finite true ⟨1069547520, by decide⟩

/-- The value `100` as `float32` (`0x42C80000`). -/
def hundred : Float32 := finite false ⟨1120403456, by decide⟩

/-- The value `-3.5` as `float32` (`0xC0600000`). -/
def negThreeAndHalf : Float32 := finite true ⟨1080033280, by decide⟩

/-- The value `14 * 2^-149` as `float32`: the largest positive value whose
product with the constant `0.035` rounds to zero. -/
def tiny : Float32 := finite false ⟨14, by decide⟩

/-- Two decimal digits of `n % 100`. -/
def twoDigits (n : Nat) : String :=
  String.mk [Char.ofNat (48 + n / 10 % 10), Char.ofNat (48 + n % 10)]

/-- Go `fmt.Sprintf("%.2f", x)` for a `float32`: the exact binary value
rounded to two decimals (ties to even), `-` from the sign bit. -/
def format2 : Float32 → String
  | nan => "NaN"
  | inf neg => if neg then "-Inf" else "+Inf"
  | finite neg c =>
      let m := mant c.val
      let e := expo c.val
      let n : Nat := if 0 ≤ e then 100 * m * 2 ^ e.toNat else shiftRound (100 * m) (-e).toNat
      (if neg then "-" else "") ++ toString (n / 100) ++ "." ++ twoDigits n

end Float32

/-! ## Library functions used by `main.go`: `strings`, `fmt`, `time` -/

/-- Go `unicode.IsSpace`. -/
def isSpace (c : Char) : Bool :=
  let n := c.toNat
  (9 ≤ n && n ≤ 13) || n = 32 || n = 133 || n = 160 || n = 5760 ||
    (8192 ≤ n && n ≤ 8202) || n = 8232 || n = 8233 || n = 8239 || n = 8287 || n = 12288

/-- Go `strings.TrimSpace`: leading and trailing white space removed. -/
def trimSpace (s : String) : String :=
  String.mk ((s.data.dropWhile isSpace).reverse.dropWhile isSpace).reverse

/-- Go `fmt.Sprintf("%v, %v", a, b)` on two strings. -/
def sprintfPair (a b : String) : String := a ++ ", " ++ b

/-- Go `fmt.Sprintf("Order: %v", id)` on an `int`. -/
def sprintfOrder (id : Int) : String := "Order: " ++ toString id

/-- Value of a decimal digit character. -/
def digitVal (c : Char) : Nat := c.toNat - 48

/-- Package `time`, `isDigit(s, i)`. -/
def isDigit (s : List Char) (i : Nat) : Bool :=
  match s.get? i with
  | some c => c.isDigit
  | none => false

/-- Package `time`, `getnum(s, fixed)`: a one- or two-digit number, two
digits required when `fixed`. -/
def getnum (s : List Char) (fixed : Bool) : Option (Nat × List Char) :=
  if !isDigit s 0 then none
  else if !isDigit s 1 then
    if fixed then none else some (digitVal (s.getD 0 default), s.drop 1)
  else some (digitVal (s.getD 0 default) * 10 + digitVal (s.getD 1 default), s.drop 2)

/-- Package `time`, `leadingInt`: the leading digits of `s` as a number (from
accumulator `x`) and the rest; fails above `2^63`. -/
def leadingInt : List Char → Nat → Option (Nat × List Char)
  | [], x => some (x, [])
  | c :: cs, x =>
      if !c.isDigit then some (x, c :: cs)
      else if x > 9223372036854775808 / 10 then none
      else if x * 10 + digitVal c > 9223372036854775808 then none
      else leadingInt cs (x * 10 + digitVal c)

/-- Package `time`, `atoi`: optional sign, then digits up to the end. -/
def atoi (s : List Char) : Option Int :=
  let neg := s.head? = some '-'
  let s1 := if s.head? = some '-' ∨ s.head? = some '+' then s.drop 1 else s
  match leadingInt s1 0 with
  | some (q, []) => some (if neg then -(q : Int) else (q : Int))
  | _ => none

/-- Package `time`, `skip(value, prefix)` for a one-character literal that is
not a space. -/
def skip (value : List Char) (c : Char) : Option (List Char) :=
  match value with
  | v :: rest => if v = c then some rest else none
  | [] => none

/-- Package `time`, `parseNanoseconds(value, nbytes)` for `nbytes ≤ 10`. -/
def parseNanoseconds (value : List Char) (nbytes : Nat) : Option Int :=
  match value with
  | [] => none
  | c :: _ =>
      if !(c = '.' ∨ c = ',') then none
      else
        match atoi ((value.take nbytes).drop 1) with
        | none => none
        | some ns => if ns < 0 then none else some (ns * 10 ^ (10 - nbytes))

/-- Package `time`, `isLeap`. -/
def isLeap (year : Int) : Bool :=
  year % 4 = 0 && (year % 100 != 0 || year % 400 = 0)

/-- Package `time`, `daysIn`. -/
def daysIn (month : Nat) (year : Int) : Nat :=
  if month = 2 then (if isLeap year then 29 else 28)
  else if month = 4 ∨ month = 6 ∨ month = 9 ∨ month = 11 then 30
  else 31

/-- A `time.Time` in UTC, by its calendar fields.  `time.Date` leaves fields
that are in range unchanged, and `Parse` only builds in-range fields. -/
structure Time where
  year : Int
  month : Nat
  day : Nat
  hour : Nat
  min : Nat
  sec : Nat
  nsec : Int
deriving DecidableEq, Repr

/-- Go `time.Parse("2006-01-02T15:04:05.000Z", value)`.  The layout splits
into the chunks `2006` (four-digit year), `-`, `01` (two-digit month), `-`,
`02` (two-digit day), `T`, `15` (hour, one or two digits), `:`, `04`, `:`,
`05`, `.000` (separator and exactly three more characters), and the literal
`Z`; nothing may follow.  The day is checked against the month at the end.
Each `getnum` result is the pair of the number and the rest of the input. -/
def timeParse (value : List Char) : Option Time :=
  -- stdLongYear
  if value.length < 4 || !isDigit value 0 then none else
  (atoi (value.take 4)).bind fun year =>
  -- "-", stdZeroMonth
  (skip (value.drop 4) '-').bind fun value =>
  (getnum value true).bind fun month =>
  if month.1 ≤ 0 || 12 < month.1 then none else
  -- "-", stdZeroDay
  (skip month.2 '-').bind fun value =>
  (getnum value true).bind fun day =>
  -- "T", stdHour
  (skip day.2 'T').bind fun value =>
  (getnum value false).bind fun hour =>
  if 24 ≤ hour.1 then none else
  -- ":", stdZeroMinute
  (skip hour.2 ':').bind fun value =>
  (getnum value true).bind fun min =>
  if 60 ≤ min.1 then none else
  -- ":", stdZeroSecond
  (skip min.2 ':').bind fun value =>
  (getnum value true).bind fun sec =>
  if 60 ≤ sec.1 then none else
  -- stdFracSecond0, three digits
  if sec.2.length < 4 then none else
  (parseNanoseconds sec.2 4).bind fun nsec =>
  -- "Z", end of layout
  (skip (sec.2.drop 4) 'Z').bind fun value =>
  if value.length ≠ 0 then none else
  -- validate the day of the month
  if day.1 < 1 || day.1 > daysIn month.1 year then none else
  some { year := year, month := month.1, day := day.1, hour := hour.1, min := min.1,
         sec := sec.1, nsec := nsec }

/-- Package `time`, `appendInt(b, x, width)` for `x ≥ 0`: decimal, zero-padded
to `width`. -/
def appendInt (x width : Nat) : List Char :=
  if x < 10 ^ width then
    (List.range width).reverse.map fun i => Char.ofNat (48 + x / 10 ^ i % 10)
  else Nat.toDigits 10 x

/-- Go `t.Format("2006-01-02")` for a year in `0..9999`. -/
def timeFormat (t : Time) : String :=
  String.mk (appendInt t.year.toNat 4 ++ ['-'] ++ appendInt t.month 2 ++ ['-'] ++ appendInt t.day 2)

/-! ## Data model (`main.go`, lines 16-47) -/

/-- An element of `Transaction.Tickets`. -/
structure Ticket where
  Price : Float32
deriving DecidableEq, Repr

/-- The Go struct `Transaction`. -/
structure Transaction where
  Id : Int
  Donation : Float32
  Total : Float32
  CreationDate : String
  TenderType : String
  Tickets : List Ticket
deriving DecidableEq, Repr

/-- The Go struct `Customer`. -/
structure Customer where
  FirstName : String
  LastName : String
  Transactions : List Transaction
deriving DecidableEq, Repr

/-- The Go struct `LineItem`. -/
structure LineItem where
  TransactionId : Int
  Customer : String
  ReceiptDate : String
  DepositTo : String
  PaymentMethod : String
  Memo : String
  LineItemDate : String
  LineItem : String
  Amount : Float32
deriving DecidableEq, Repr

/-! ## Transformer (`main.go`, lines 110-191) -/

/-- The Go function `formatDateString`; `none` is the `log.Fatalf` exit. -/
def formatDateString (date : String) : Option String :=
  match timeParse date.data with
  | none => none
  | some t => some (timeFormat t)

/-- The Go function `parseTransaction`; `none` when `formatDateString` exits. -/
def parseTransaction (c : Customer) (t : Transaction) : Option (List LineItem) := do
  let ls : List LineItem := []
  let date ← formatDateString t.CreationDate
  let ls :=
    if !t.Donation.isZero then
      let l : LineItem :=
        { TransactionId := t.Id
          Customer := sprintfPair (trimSpace c.LastName) (trimSpace c.FirstName)
          ReceiptDate := date
          DepositTo := "200.100 Undeposited Funds"
          PaymentMethod := t.TenderType
          Memo := sprintfOrder t.Id
          LineItemDate := date
          LineItem := "Contributed Income:Unrestricted Contributions"
          Amount := t.Donation }
      let ls := ls ++ [l]
      let l := { l with LineItem := "Credit Card Fees",
                        Amount := (t.Donation.mul Float32.c035).mul Float32.negOne }
      ls ++ [l]
    else ls
  let ls := t.Tickets.foldl (fun ls ticket =>
    let ls := ls ++ [
      { TransactionId := t.Id
        Customer := sprintfPair (trimSpace c.LastName) (trimSpace c.FirstName)
        ReceiptDate := date
        DepositTo := "200.100 Undeposited Funds"
        PaymentMethod := t.TenderType
        Memo := sprintfOrder t.Id
        LineItemDate := date
        LineItem := "Program Income:BO Income"
        Amount := ticket.Price }]
    if ticket.Price.isZero then
      ls ++ [
        { TransactionId := t.Id
          Customer := sprintfPair (trimSpace c.LastName) (trimSpace c.FirstName)
          ReceiptDate := date
          DepositTo := "200.100 Undeposited Funds"
          PaymentMethod := t.TenderType
          Memo := sprintfOrder t.Id
          LineItemDate := date
          LineItem := "Ticketing Fees"
          Amount := Float32.negOneAndHalf }]
    else ls) ls
  pure ls

/-- The Go function `parseCustomer`. -/
def parseCustomer (c : Customer) : Option (List LineItem) :=
  c.Transactions.foldlM (fun ls t => do
    let r ← parseTransaction c t
    pure (ls ++ r)) []

/-- The Go function `parseCustomers`. -/
def parseCustomers (cs : List Customer) : Option (List LineItem) :=
  cs.foldlM (fun ls c => do
    let r ← parseCustomer c
    pure (ls ++ r)) []

/-! ## Writer (`main.go`, lines 193-203) -/

/-- The header record written first by `printLineItems`. -/
def csvHeader : List String :=
  ["Sales Receipt No", "Customer", "Sales Receipt Date", "Deposit To", "Payment Method",
    "Memo", "Line Item Service Date", "Line Item", "Line Item Amount"]

/-- The record written for one line item. -/
def csvRecord (l : LineItem) : List String :=
  [toString l.TransactionId, l.Customer, l.ReceiptDate, l.DepositTo, l.PaymentMethod,
    l.Memo, l.LineItemDate, l.LineItem, l.Amount.format2]

/-- The Go function `printLineItems`: the records passed to `w.Write`, in
order. -/
def printLineItems (ls : List LineItem) : List (List String) :=
  ls.foldl (fun w l => w ++ [csvRecord l]) [csvHeader]

/-! ## Fetcher and orchestration (`main.go`, lines 57-108) -/

/-- What one GET request to the transactions endpoint yields: `client.Do`
fails, or there is a response with a status code; for a response,
`decodeErr` tells whether `Decode` returned an error and `customers` is what
it left in `transactions.Customers`. -/
inductive HttpOutcome where
  | transportError
  | response (statusCode : Nat) (decodeErr : Bool) (customers : List Customer)
deriving DecidableEq, Repr

/-- The errors `getEventPageIndex` returns. -/
inductive FetchError where
  | callFailed
  | nonSuccessStatus (statusCode : Nat)
deriving DecidableEq, Repr

/-- The `page` query parameter sent for `pageNum` (line 92). -/
def pageParam (pageNum : Nat) : Nat := pageNum + 1

/-- The Go function `getEventPageIndex` against the endpoint `api` (from page
parameter to outcome).  `http.NewRequest` cannot fail on the constant method
and URL; the value returned by `Decode` is dropped (line 106). -/
def getEventPageIndex (api : Nat → HttpOutcome) (pageNum : Nat) :
    Except FetchError (List Customer) :=
  match api (pageParam pageNum) with
  | .transportError => .error .callFailed
  | .response statusCode _ customers =>
      if statusCode ≠ 200 then .error (.nonSuccessStatus statusCode)
      else .ok customers

/-- State of the fetch loop of `processEvent` when it is left. -/
inductive Fetched where
  | done (cs : List Customer) (requests : List Nat)
  | fatal (requests : List Nat)
  | running (cs : List Customer) (pageIndex : Nat) (requests : List Nat)
deriving DecidableEq, Repr

/-- The loop `for ok { ... }` of `processEvent` (lines 61-72), at most `fuel`
iterations; `requests` collects the page parameter of every request. -/
def fetchLoop (api : Nat → HttpOutcome) :
    Nat → List Customer → Nat → List Nat → Fetched
  | 0, cs, pageIndex, requests => .running cs pageIndex requests
  | fuel + 1, cs, pageIndex, requests =>
      match getEventPageIndex api pageIndex with
      | .error _ => .fatal (requests ++ [pageParam pageIndex])
      | .ok newCustomers =>
          if newCustomers.length ≠ 0 then
            fetchLoop api fuel (cs ++ newCustomers) (pageIndex + 1)
              (requests ++ [pageParam pageIndex])
          else .done (cs ++ newCustomers) (requests ++ [pageParam pageIndex])

/-- How a run of `processEvent` ends. -/
inductive Exit where
  | returned
  | fatalFetch
  | fatalDate
  | running
deriving DecidableEq, Repr

/-- What a run of `processEvent` does: the requests issued, the argument of
`parseCustomers` if it was called, the CSV records written, and how it
ends. -/
structure Run where
  requests : List Nat
  parsed : Option (List Customer)
  stdout : List (List String)
  exit : Exit
deriving DecidableEq, Repr

/-- The Go function `processEvent`, its loop cut at `fuel` iterations. -/
def processEvent (api : Nat → HttpOutcome) (fuel : Nat) : Run :=
  match fetchLoop api fuel [] 0 [] with
  | .running _ _ requests =>
      { requests := requests, parsed := none, stdout := [], exit := .running }
  | .fatal requests =>
      { requests := requests, parsed := none, stdout := [], exit := .fatalFetch }
  | .done cs requests =>
      match parseCustomers cs with
      | none => { requests := requests, parsed := some cs, stdout := [], exit := .fatalDate }
      | some ls =>
          { requests := requests, parsed := some cs, stdout := printLineItems ls,
            exit := .returned }

/-! ## The transformer rules as the specification words them -/

/-- Specification, section 4.2: the fields all lines of a transaction share,
with the account label and the amount of the line. -/
def specLine (c : Customer) (t : Transaction) (date label : String) (amount : Float32) :
    LineItem :=
  { TransactionId := t.Id
    Customer := trimSpace c.LastName ++ ", " ++ trimSpace c.FirstName
    ReceiptDate := date
    DepositTo := "200.100 Undeposited Funds"
    PaymentMethod := t.TenderType
    Memo := "Order: " ++ toString t.Id
    LineItemDate := date
    LineItem := label
    Amount := amount }

/-- Specification, rule 1: the donation line and the credit-card-fee line of a
transaction with a non-zero donation. -/
def specDonationLines (c : Customer) (t : Transaction) (date : String) : List LineItem :=
  if t.Donation.isZero then []
  else
    [specLine c t date "Contributed Income:Unrestricted Contributions" t.Donation,
     specLine c t date "Credit Card Fees" ((t.Donation.mul Float32.c035).mul Float32.negOne)]

/-- Specification, rule 2: the lines of one ticket. -/
def specTicketBlock (c : Customer) (t : Transaction) (date : String) (ticket : Ticket) :
    List LineItem :=
  if ticket.Price.isZero then
    [specLine c t date "Program Income:BO Income" ticket.Price,
     specLine c t date "Ticketing Fees" Float32.negOneAndHalf]
  else [specLine c t date "Program Income:BO Income" ticket.Price]

/-! ## The timestamp shapes of the specification -/

/-- Specification, the strict shape: four-digit year, `-`, two-digit month,
`-`, two-digit day, `T`, two-digit hour, `:`, two-digit minute, `:`, two-digit
second, `.`, exactly three fractional digits, literal `Z`. -/
def strictShape (s : List Char) : Bool :=
  decide (s.length = 24) &&
    [0, 1, 2, 3, 5, 6, 8, 9, 11, 12, 14, 15, 17, 18, 20, 21, 22].all (fun i => isDigit s i) &&
    decide (s.get? 4 = some '-') && decide (s.get? 7 = some '-') &&
    decide (s.get? 10 = some 'T') && decide (s.get? 13 = some ':') &&
    decide (s.get? 16 = some ':') && decide (s.get? 19 = some '.') &&
    decide (s.get? 23 = some 'Z')

/-- Value of a string of decimal digits. -/
def numVal (cs : List Char) : Nat := cs.foldl (fun x c => x * 10 + digitVal c) 0

/-- The strict shape relaxed in three places: the hour has one or two digits,
the fraction is introduced by `.` or `,`, and the three fraction characters
are three digits, `+` and two digits, or `-00`; with the ranges month 1..12,
day within the month, hour below 24, minute and second below 60. -/
def looseShape (s : List Char) : Prop :=
  ∃ (y1 y2 y3 y4 m1 m2 d1 d2 n1 n2 s1 s2 sep f1 f2 f3 : Char) (hour : List Char),
    s = [y1, y2, y3, y4, '-', m1, m2, '-', d1, d2, 'T'] ++ hour ++
          [':', n1, n2, ':', s1, s2, sep, f1, f2, f3, 'Z'] ∧
    (∀ c ∈ [y1, y2, y3, y4, m1, m2, d1, d2, n1, n2, s1, s2, f2, f3], c.isDigit = true) ∧
    (hour.length = 1 ∨ hour.length = 2) ∧ (∀ c ∈ hour, c.isDigit = true) ∧
    (sep = '.' ∨ sep = ',') ∧
    (f1.isDigit = true ∨ f1 = '+' ∨ (f1 = '-' ∧ f2 = '0' ∧ f3 = '0')) ∧
    (1 ≤ digitVal m1 * 10 + digitVal m2 ∧ digitVal m1 * 10 + digitVal m2 ≤ 12) ∧
    (1 ≤ digitVal d1 * 10 + digitVal d2 ∧
      digitVal d1 * 10 + digitVal d2 ≤
        daysIn (digitVal m1 * 10 + digitVal m2)
          ((((digitVal y1 * 10 + digitVal y2) * 10 + digitVal y3) * 10 + digitVal y4 : Nat)
            : Int)) ∧
    numVal hour < 24 ∧
    digitVal n1 * 10 + digitVal n2 < 60 ∧
    digitVal s1 * 10 + digitVal s2 < 60

/-- Specification, line-item count of a transaction: two for a non-zero
donation, one per ticket and one more per ticket of price zero. -/
def lineCount (t : Transaction) : Nat :=
  (if t.Donation.isZero then 0 else 2) + t.Tickets.length +
    t.Tickets.countP (fun ticket => ticket.Price.isZero)

/-! ## Sample data -/

/-- The transaction of the end-to-end example: id 42, donation 100, one free
ticket. -/
def order42 : Transaction :=
  { Id := 42
    Donation := Float32.hundred
    Total := Float32.hundred
    CreationDate := "2023-05-01T12:00:00.000Z"
    TenderType := "Visa"
    Tickets := [{ Price := Float32.zero }] }

/-- The customer of the end-to-end example. -/
def janeDoe : Customer :=
  { FirstName := " Jane ", LastName := " Doe ", Transactions := [order42] }

/-- A refund: the transaction of the end-to-end example with donation -1. -/
def refund42 : Transaction := { order42 with Donation := Float32.negOne }

/-- The transaction of the end-to-end example with the donation `14 * 2^-149`. -/
def dust42 : Transaction := { order42 with Donation := Float32.tiny }

/-- A transaction with no donation, no ticket and a malformed creation date. -/
def emptyBadDate : Transaction :=
  { Id := 7, Donation := Float32.zero, Total := Float32.zero, CreationDate := "yesterday",
    TenderType := "Cash", Tickets := [] }

/-- A line item whose amount is not a number. -/
def nanItem : LineItem :=
  specLine janeDoe order42 "2023-05-01" "Program Income:BO Income" Float32.nan

/-- Pages of the sample endpoint: pages 1 and 2 hold one customer, every
later page is empty. -/
def samplePages (p : Nat) : List Customer :=
  if p = 1 ∨ p = 2 then [janeDoe] else []

/-- An endpoint that answers every request with status 200 and the sample
pages. -/
def sampleApi (p : Nat) : HttpOutcome :=
  .response 200 false (samplePages p)

/-- An endpoint that answers with status 200 and a body that is not JSON:
`Decode` returns an error and stores nothing. -/
def undecodableApi (_ : Nat) : HttpOutcome :=
  .response 200 true []

/-- An endpoint whose first page holds one customer and whose second request
gets status 500. -/
def failingApi (p : Nat) : HttpOutcome :=
  if p = 1 then .response 200 false [janeDoe] else .response 500 false []

/-! ## Theorems -/

/-- A left fold that appends a block per element is the accumulator followed
by the concatenation of the blocks. -/
theorem foldl_append_blocks {α β : Type} (f : α → List β) (xs : List α) (acc : List β) :
    xs.foldl (fun ls x => ls ++ f x) acc = acc ++ xs.flatMap f := by
  induction xs generalizing acc with
  | nil => simp
  | cons x xs ih => simp [ih, List.append_assoc]

/-- The result of `parseTransaction`: nothing when the date fails, otherwise
the donation lines followed by the ticket blocks in ticket order. -/
theorem parseTransaction_eq (c : Customer) (t : Transaction) :
    parseTransaction c t =
      (formatDateString t.CreationDate).map fun date =>
        specDonationLines c t date ++ t.Tickets.flatMap (specTicketBlock c t date) := by
  unfold parseTransaction
  cases hd : formatDateString t.CreationDate with
  | none => rfl
  | some date =>
    simp only [Option.map_some', Option.bind_eq_bind, Option.some_bind, Option.pure_def]
    have hfold : ∀ acc : List LineItem,
        t.Tickets.foldl (fun ls ticket =>
          if ticket.Price.isZero = true then
            (ls ++ [
              { TransactionId := t.Id
                Customer := sprintfPair (trimSpace c.LastName) (trimSpace c.FirstName)
                ReceiptDate := date
                DepositTo := "200.100 Undeposited Funds"
                PaymentMethod := t.TenderType
                Memo := sprintfOrder t.Id
                LineItemDate := date
                LineItem := "Program Income:BO Income"
                Amount := ticket.Price }]) ++ [
              { TransactionId := t.Id
                Customer := sprintfPair (trimSpace c.LastName) (trimSpace c.FirstName)
                ReceiptDate := date
                DepositTo := "200.100 Undeposited Funds"
                PaymentMethod := t.TenderType
                Memo := sprintfOrder t.Id
                LineItemDate := date
                LineItem := "Ticketing Fees"
                Amount := Float32.negOneAndHalf }]
          else
            ls ++ [
              { TransactionId := t.Id
                Customer := sprintfPair (trimSpace c.LastName) (trimSpace c.FirstName)
                ReceiptDate := date
                DepositTo := "200.100 Undeposited Funds"
                PaymentMethod := t.TenderType
                Memo := sprintfOrder t.Id
                LineItemDate := date
                LineItem := "Program Income:BO Income"
                Amount := ticket.Price }]) acc
          = acc ++ t.Tickets.flatMap (specTicketBlock c t date) := by
      intro acc
      rw [← foldl_append_blocks]
      congr 1
      funext ls ticket
      unfold specTicketBlock specLine sprintfPair sprintfOrder
      split <;> simp
    rw [hfold]
    unfold specDonationLines specLine sprintfPair sprintfOrder
    cases hz : t.Donation.isZero <;> simp

/-- The result of `parseTransaction` when the date formats to `date`. -/
theorem parseTransaction_some (c : Customer) (t : Transaction) (date : String)
    (hd : formatDateString t.CreationDate = some date) :
    parseTransaction c t =
      some (specDonationLines c t date ++ t.Tickets.flatMap (specTicketBlock c t date)) := by
  rw [parseTransaction_eq, hd]; rfl

/-- Every line of a ticket block is an income line or a ticketing-fee line. -/
theorem ticket_labels (c : Customer) (t : Transaction) (date : String) (ts : List Ticket) :
    ∀ l ∈ ts.flatMap (specTicketBlock c t date),
      l.LineItem = "Program Income:BO Income" ∨ l.LineItem = "Ticketing Fees" := by
  intro l hl
  rw [List.mem_flatMap] at hl
  obtain ⟨ticket, _, hmem⟩ := hl
  unfold specTicketBlock at hmem
  split at hmem
  · simp only [List.mem_cons, List.mem_singleton, List.not_mem_nil, or_false] at hmem
    rcases hmem with h | h <;> simp [h, specLine]
  · simp only [List.mem_singleton] at hmem
    simp [hmem, specLine]

/-- Every donation line is a contribution line or a credit-card-fee line. -/
theorem donation_labels (c : Customer) (t : Transaction) (date : String) :
    ∀ l ∈ specDonationLines c t date,
      l.LineItem = "Contributed Income:Unrestricted Contributions" ∨
        l.LineItem = "Credit Card Fees" := by
  intro l hl
  unfold specDonationLines at hl
  split at hl
  · simp at hl
  · simp only [List.mem_cons, List.mem_singleton, List.not_mem_nil, or_false] at hl
    rcases hl with h | h <;> simp [h, specLine]

/-- C1: for a transaction whose creation date parses, `parseTransaction`
returns a list which, when the donation is zero, has no line labelled
"Contributed Income:Unrestricted Contributions" or "Credit Card Fees", and
which, when the donation is not zero, has exactly one line of each label, as
its first two items in that order, the first with the donation as amount and
the second with the `float32` product `Donation * 0.035 * -1`. -/
theorem parseTransaction_donation_lines (c : Customer) (t : Transaction)
    (hdate : (formatDateString t.CreationDate).isSome = true) :
    ∃ ls, parseTransaction c t = some ls ∧
      (t.Donation.isZero = true →
        ∀ l ∈ ls, l.LineItem ≠ "Contributed Income:Unrestricted Contributions" ∧
          l.LineItem ≠ "Credit Card Fees") ∧
      (t.Donation.isZero = false →
        ls.countP (fun l => l.LineItem = "Contributed Income:Unrestricted Contributions") = 1 ∧
        ls.countP (fun l => l.LineItem = "Credit Card Fees") = 1 ∧
        ∃ l1 l2 rest, ls = l1 :: l2 :: rest ∧
          l1.LineItem = "Contributed Income:Unrestricted Contributions" ∧
          l1.Amount = t.Donation ∧
          l2.LineItem = "Credit Card Fees" ∧
          l2.Amount = (t.Donation.mul Float32.c035).mul Float32.negOne) := by
  obtain ⟨date, hd⟩ := Option.isSome_iff_exists.mp hdate
  refine ⟨_, parseTransaction_some c t date hd, ?_, ?_⟩
  · intro hz l hl
    have hnil : specDonationLines c t date = [] := by simp [specDonationLines, hz]
    rw [hnil, List.nil_append] at hl
    rcases ticket_labels c t date t.Tickets l hl with h | h <;> rw [h] <;> decide
  · intro hz
    have hcount : ∀ label : String, label ≠ "Program Income:BO Income" →
        label ≠ "Ticketing Fees" →
        (t.Tickets.flatMap (specTicketBlock c t date)).countP
          (fun l => l.LineItem = label) = 0 := by
      intro label h1 h2
      rw [List.countP_eq_zero]
      intro l hl
      rcases ticket_labels c t date t.Tickets l hl with h | h <;> simp [h, Ne.symm h1, Ne.symm h2]
    have hdon : specDonationLines c t date =
        [specLine c t date "Contributed Income:Unrestricted Contributions" t.Donation,
         specLine c t date "Credit Card Fees"
           ((t.Donation.mul Float32.c035).mul Float32.negOne)] := by
      simp [specDonationLines, hz]
    rw [hdon]
    refine ⟨?_, ?_, _, _, _, rfl, rfl, rfl, rfl, rfl⟩
    · rw [List.countP_append, hcount _ (by decide) (by decide)]
      simp [List.countP_cons, specLine]
    · rw [List.countP_append, hcount _ (by decide) (by decide)]
      simp [List.countP_cons, specLine]

/-- Witness for C1 at the transaction of the end-to-end example. -/
theorem parseTransaction_donation_lines_witness :
    (formatDateString order42.CreationDate).isSome = true ∧
    ∃ ls, parseTransaction janeDoe order42 = some ls ∧
      (order42.Donation.isZero = true →
        ∀ l ∈ ls, l.LineItem ≠ "Contributed Income:Unrestricted Contributions" ∧
          l.LineItem ≠ "Credit Card Fees") ∧
      (order42.Donation.isZero = false →
        ls.countP (fun l => l.LineItem = "Contributed Income:Unrestricted Contributions") = 1 ∧
        ls.countP (fun l => l.LineItem = "Credit Card Fees") = 1 ∧
        ∃ l1 l2 rest, ls = l1 :: l2 :: rest ∧
          l1.LineItem = "Contributed Income:Unrestricted Contributions" ∧
          l1.Amount = order42.Donation ∧
          l2.LineItem = "Credit Card Fees" ∧
          l2.Amount = (order42.Donation.mul Float32.c035).mul Float32.negOne) :=
  ⟨by decide, parseTransaction_donation_lines janeDoe order42 (by decide)⟩

/-- C2: for a transaction whose creation date parses, what `parseTransaction`
returns after the donation lines (none for a zero donation, two otherwise) is
the concatenation, in ticket order, of one block per ticket: the
"Program Income:BO Income" line with the price as amount, followed, exactly
when the price is zero, by one "Ticketing Fees" line with amount -1.5. -/
theorem parseTransaction_ticket_blocks (c : Customer) (t : Transaction)
    (hdate : (formatDateString t.CreationDate).isSome = true) :
    ∃ ls date, parseTransaction c t = some ls ∧ formatDateString t.CreationDate = some date ∧
      ls.drop (if t.Donation.isZero then 0 else 2) =
        t.Tickets.flatMap fun ticket =>
          if ticket.Price.isZero then
            [specLine c t date "Program Income:BO Income" ticket.Price,
             specLine c t date "Ticketing Fees" Float32.negOneAndHalf]
          else [specLine c t date "Program Income:BO Income" ticket.Price] := by
  obtain ⟨date, hd⟩ := Option.isSome_iff_exists.mp hdate
  refine ⟨_, date, parseTransaction_some c t date hd, hd, ?_⟩
  have hblock : (fun ticket : Ticket =>
      if ticket.Price.isZero then
        [specLine c t date "Program Income:BO Income" ticket.Price,
         specLine c t date "Ticketing Fees" Float32.negOneAndHalf]
      else [specLine c t date "Program Income:BO Income" ticket.Price]) =
      specTicketBlock c t date := by
    funext ticket; rfl
  rw [hblock]
  cases hz : t.Donation.isZero <;> simp [specDonationLines, hz]

/-- Witness for C2 at the transaction of the end-to-end example. -/
theorem parseTransaction_ticket_blocks_witness :
    (formatDateString order42.CreationDate).isSome = true ∧
    ∃ ls date, parseTransaction janeDoe order42 = some ls ∧
      formatDateString order42.CreationDate = some date ∧
      ls.drop (if order42.Donation.isZero then 0 else 2) =
        order42.Tickets.flatMap fun ticket =>
          if ticket.Price.isZero then
            [specLine janeDoe order42 date "Program Income:BO Income" ticket.Price,
             specLine janeDoe order42 date "Ticketing Fees" Float32.negOneAndHalf]
          else [specLine janeDoe order42 date "Program Income:BO Income" ticket.Price] :=
  ⟨by decide, parseTransaction_ticket_blocks janeDoe order42 (by decide)⟩

/-- An aborting left fold that appends the block of each element: when every
element has a block, the result is the accumulator followed by the blocks in
order. -/
theorem foldlM_append_blocks {α β : Type} (f : α → Option (List β)) (xs : List α)
    (acc : List β) (h : ∀ x ∈ xs, (f x).isSome = true) :
    xs.foldlM (fun ls x => do
      let r ← f x
      pure (ls ++ r)) acc = some (acc ++ xs.flatMap fun x => (f x).getD []) := by
  induction xs generalizing acc with
  | nil => simp
  | cons x xs ih =>
    obtain ⟨r, hr⟩ := Option.isSome_iff_exists.mp (h x (List.mem_cons_self x xs))
    have hxs : ∀ y ∈ xs, (f y).isSome = true := fun y hy => h y (List.mem_cons_of_mem x hy)
    rw [List.foldlM_cons, hr]
    show List.foldlM _ (acc ++ r) xs = _
    rw [ih _ hxs]
    simp [hr, List.append_assoc]

/-- The function parseCustomer on a customer whose transaction dates all parse. -/
theorem parseCustomer_eq_flatMap (c : Customer)
    (h : ∀ t ∈ c.Transactions, (formatDateString t.CreationDate).isSome = true) :
    parseCustomer c = some (c.Transactions.flatMap fun t => (parseTransaction c t).getD []) := by
  unfold parseCustomer
  rw [foldlM_append_blocks (parseTransaction c) c.Transactions []]
  · simp
  · intro t ht
    obtain ⟨date, hd⟩ := Option.isSome_iff_exists.mp (h t ht)
    rw [parseTransaction_some c t date hd]; rfl

/-- C3: when every creation date parses, `parseCustomers cs` is the
concatenation in customer order of `parseCustomer c`, `parseCustomer c` is the
concatenation in transaction order of `parseTransaction c t`, so that
`parseCustomers cs` is the nested flat map, and each `parseTransaction c t` is
a list of donation / credit-card-fee lines followed by a list of ticket
lines. -/
theorem parseCustomers_order_preserving (cs : List Customer)
    (h : ∀ c ∈ cs, ∀ t ∈ c.Transactions, (formatDateString t.CreationDate).isSome = true) :
    parseCustomers cs = some (cs.flatMap fun c => (parseCustomer c).getD []) ∧
    (∀ c ∈ cs, parseCustomer c =
      some (c.Transactions.flatMap fun t => (parseTransaction c t).getD [])) ∧
    parseCustomers cs =
      some (cs.flatMap fun c => c.Transactions.flatMap fun t => (parseTransaction c t).getD []) ∧
    (∀ c ∈ cs, ∀ t ∈ c.Transactions, ∃ donation tickets,
      parseTransaction c t = some (donation ++ tickets) ∧
      (∀ l ∈ donation, l.LineItem = "Contributed Income:Unrestricted Contributions" ∨
        l.LineItem = "Credit Card Fees") ∧
      (∀ l ∈ tickets, l.LineItem = "Program Income:BO Income" ∨
        l.LineItem = "Ticketing Fees")) := by
  have hcust : ∀ c ∈ cs, parseCustomer c =
      some (c.Transactions.flatMap fun t => (parseTransaction c t).getD []) :=
    fun c hc => parseCustomer_eq_flatMap c (h c hc)
  have hall : parseCustomers cs = some (cs.flatMap fun c => (parseCustomer c).getD []) := by
    unfold parseCustomers
    rw [foldlM_append_blocks parseCustomer cs []]
    · simp
    · intro c hc
      rw [hcust c hc]; rfl
  refine ⟨hall, hcust, ?_, ?_⟩
  · rw [hall]
    congr 1
    apply List.flatMap_congr
    intro c hc
    rw [hcust c hc]; rfl
  · intro c hc t ht
    obtain ⟨date, hd⟩ := Option.isSome_iff_exists.mp (h c hc t ht)
    exact ⟨_, _, parseTransaction_some c t date hd, donation_labels c t date,
      ticket_labels c t date t.Tickets⟩

/-- Witness for C3 at the customer of the end-to-end example. -/
theorem parseCustomers_order_preserving_witness :
    (∀ c ∈ [janeDoe], ∀ t ∈ c.Transactions,
      (formatDateString t.CreationDate).isSome = true) ∧
    (parseCustomers [janeDoe] = some ([janeDoe].flatMap fun c => (parseCustomer c).getD []) ∧
    (∀ c ∈ [janeDoe], parseCustomer c =
      some (c.Transactions.flatMap fun t => (parseTransaction c t).getD [])) ∧
    parseCustomers [janeDoe] =
      some ([janeDoe].flatMap fun c =>
        c.Transactions.flatMap fun t => (parseTransaction c t).getD []) ∧
    (∀ c ∈ [janeDoe], ∀ t ∈ c.Transactions, ∃ donation tickets,
      parseTransaction c t = some (donation ++ tickets) ∧
      (∀ l ∈ donation, l.LineItem = "Contributed Income:Unrestricted Contributions" ∨
        l.LineItem = "Credit Card Fees") ∧
      (∀ l ∈ tickets, l.LineItem = "Program Income:BO Income" ∨
        l.LineItem = "Ticketing Fees"))) :=
  have hdates : ∀ c ∈ [janeDoe], ∀ t ∈ c.Transactions,
      (formatDateString t.CreationDate).isSome = true := by
    intro c hc t ht
    rw [List.mem_singleton] at hc
    subst hc
    have ht2 : t = order42 := by simpa [janeDoe] using ht
    subst ht2
    decide
  ⟨hdates, parseCustomers_order_preserving [janeDoe] hdates⟩

/-- C4: every line item `parseTransaction c t` returns has the transaction id
of `t`, the customer name "Last, First" built from the trimmed names, the
deposit account "200.100 Undeposited Funds", the tender type as payment
method, the memo "Order: " followed by the decimal id, and the formatted
creation date as both dates; any two line items of the transaction differ at
most in `LineItem` and `Amount`. -/
theorem parseTransaction_shared_fields (c : Customer) (t : Transaction)
    (hdate : (formatDateString t.CreationDate).isSome = true) :
    ∃ ls date, parseTransaction c t = some ls ∧ formatDateString t.CreationDate = some date ∧
      (∀ l ∈ ls,
        l.TransactionId = t.Id ∧
        l.Customer = trimSpace c.LastName ++ ", " ++ trimSpace c.FirstName ∧
        l.DepositTo = "200.100 Undeposited Funds" ∧
        l.PaymentMethod = t.TenderType ∧
        l.Memo = "Order: " ++ toString t.Id ∧
        l.ReceiptDate = date ∧
        l.LineItemDate = date) ∧
      (∀ l ∈ ls, ∀ k ∈ ls, { l with LineItem := k.LineItem, Amount := k.Amount } = k) := by
  obtain ⟨date, hd⟩ := Option.isSome_iff_exists.mp hdate
  have hshape : ∀ l ∈ specDonationLines c t date ++ t.Tickets.flatMap (specTicketBlock c t date),
      ∃ label amount, l = specLine c t date label amount := by
    intro l hl
    rw [List.mem_append] at hl
    rcases hl with hl | hl
    · unfold specDonationLines at hl
      split at hl
      · simp at hl
      · simp only [List.mem_cons, List.mem_singleton, List.not_mem_nil, or_false] at hl
        rcases hl with h | h <;> exact ⟨_, _, h⟩
    · rw [List.mem_flatMap] at hl
      obtain ⟨ticket, _, hmem⟩ := hl
      unfold specTicketBlock at hmem
      split at hmem
      · simp only [List.mem_cons, List.mem_singleton, List.not_mem_nil, or_false] at hmem
        rcases hmem with h | h <;> exact ⟨_, _, h⟩
      · simp only [List.mem_singleton] at hmem
        exact ⟨_, _, hmem⟩
  refine ⟨_, date, parseTransaction_some c t date hd, hd, ?_, ?_⟩
  · intro l hl
    obtain ⟨label, amount, rfl⟩ := hshape l hl
    exact ⟨rfl, rfl, rfl, rfl, rfl, rfl, rfl⟩
  · intro l hl k hk
    obtain ⟨label, amount, rfl⟩ := hshape l hl
    obtain ⟨label2, amount2, rfl⟩ := hshape k hk
    rfl

/-- Witness for C4 at the transaction of the end-to-end example. -/
theorem parseTransaction_shared_fields_witness :
    (formatDateString order42.CreationDate).isSome = true ∧
    ∃ ls date, parseTransaction janeDoe order42 = some ls ∧
      formatDateString order42.CreationDate = some date ∧
      (∀ l ∈ ls,
        l.TransactionId = order42.Id ∧
        l.Customer = trimSpace janeDoe.LastName ++ ", " ++ trimSpace janeDoe.FirstName ∧
        l.DepositTo = "200.100 Undeposited Funds" ∧
        l.PaymentMethod = order42.TenderType ∧
        l.Memo = "Order: " ++ toString order42.Id ∧
        l.ReceiptDate = date ∧
        l.LineItemDate = date) ∧
      (∀ l ∈ ls, ∀ k ∈ ls, { l with LineItem := k.LineItem, Amount := k.Amount } = k) :=
  ⟨by decide, parseTransaction_shared_fields janeDoe order42 (by decide)⟩

/-- C5: the end-to-end example.  For the customer " Jane " / " Doe " with the
one transaction (id 42, donation 100, tender type "Visa", creation date
"2023-05-01T12:00:00.000Z", one ticket of price 0), `parseCustomers` returns
exactly the four line items donation 100, credit-card fee -3.5, program income
0 and ticketing fee -1.5, all with customer "Doe, Jane", memo "Order: 42",
payment method "Visa" and both dates "2023-05-01"; the amounts print as
100.00, -3.50, 0.00 and -1.50. -/
theorem parseCustomers_end_to_end :
    parseCustomers
      [{ FirstName := " Jane ", LastName := " Doe ",
         Transactions :=
           [{ Id := 42, Donation := Float32.hundred, Total := Float32.hundred,
              CreationDate := "2023-05-01T12:00:00.000Z", TenderType := "Visa",
              Tickets := [{ Price := Float32.zero }] }] }] =
      some
        [{ TransactionId := 42, Customer := "Doe, Jane", ReceiptDate := "2023-05-01",
           DepositTo := "200.100 Undeposited Funds", PaymentMethod := "Visa",
           Memo := "Order: 42", LineItemDate := "2023-05-01",
           LineItem := "Contributed Income:Unrestricted Contributions",
           Amount := Float32.hundred },
         { TransactionId := 42, Customer := "Doe, Jane", ReceiptDate := "2023-05-01",
           DepositTo := "200.100 Undeposited Funds", PaymentMethod := "Visa",
           Memo := "Order: 42", LineItemDate := "2023-05-01",
           LineItem := "Credit Card Fees", Amount := Float32.negThreeAndHalf },
         { TransactionId := 42, Customer := "Doe, Jane", ReceiptDate := "2023-05-01",
           DepositTo := "200.100 Undeposited Funds", PaymentMethod := "Visa",
           Memo := "Order: 42", LineItemDate := "2023-05-01",
           LineItem := "Program Income:BO Income", Amount := Float32.zero },
         { TransactionId := 42, Customer := "Doe, Jane", ReceiptDate := "2023-05-01",
           DepositTo := "200.100 Undeposited Funds", PaymentMethod := "Visa",
           Memo := "Order: 42", LineItemDate := "2023-05-01",
           LineItem := "Ticketing Fees", Amount := Float32.negOneAndHalf }] ∧
    (parseCustomers
      [{ FirstName := " Jane ", LastName := " Doe ",
         Transactions :=
           [{ Id := 42, Donation := Float32.hundred, Total := Float32.hundred,
              CreationDate := "2023-05-01T12:00:00.000Z", TenderType := "Visa",
              Tickets := [{ Price := Float32.zero }] }] }]).map printLineItems =
      some
        [["Sales Receipt No", "Customer", "Sales Receipt Date", "Deposit To",
          "Payment Method", "Memo", "Line Item Service Date", "Line Item",
          "Line Item Amount"],
         ["42", "Doe, Jane", "2023-05-01", "200.100 Undeposited Funds", "Visa", "Order: 42",
          "2023-05-01", "Contributed Income:Unrestricted Contributions", "100.00"],
         ["42", "Doe, Jane", "2023-05-01", "200.100 Undeposited Funds", "Visa", "Order: 42",
          "2023-05-01", "Credit Card Fees", "-3.50"],
         ["42", "Doe, Jane", "2023-05-01", "200.100 Undeposited Funds", "Visa", "Order: 42",
          "2023-05-01", "Program Income:BO Income", "0.00"],
         ["42", "Doe, Jane", "2023-05-01", "200.100 Undeposited Funds", "Visa", "Order: 42",
          "2023-05-01", "Ticketing Fees", "-1.50"]] := by
  constructor <;> decide

/-- One iteration of the fetch loop on a page with status 200: the customers
are appended and the loop goes on exactly when the page is not empty. -/
theorem fetchLoop_succ_ok (api : Nat → HttpOutcome) (fuel : Nat) (cs : List Customer)
    (pageIndex : Nat) (requests : List Nat) (e : Bool) (page : List Customer)
    (h : api (pageIndex + 1) = .response 200 e page) :
    fetchLoop api (fuel + 1) cs pageIndex requests =
      if page ≠ [] then
        fetchLoop api fuel (cs ++ page) (pageIndex + 1) (requests ++ [pageIndex + 1])
      else .done (cs ++ page) (requests ++ [pageIndex + 1]) := by
  have hget : getEventPageIndex api pageIndex = .ok page := by
    simp [getEventPageIndex, pageParam, h]
  rw [fetchLoop, hget]
  cases page <;> simp [pageParam]

/-- The fetch loop from any state: over `n` non-empty pages followed by an
empty one it issues `n + 1` requests and accumulates the `n` pages. -/
theorem fetchLoop_done (api : Nat → HttpOutcome) (pages : Nat → List Customer) (n : Nat) :
    ∀ (j fuel : Nat) (cs : List Customer) (requests : List Nat),
      (∀ i, i ≤ n → ∃ e, api (j + i + 1) = .response 200 e (pages (j + i + 1))) →
      (∀ i, i < n → pages (j + i + 1) ≠ []) →
      pages (j + n + 1) = [] →
      n + 1 ≤ fuel →
      fetchLoop api fuel cs j requests =
        .done (cs ++ (List.range n).flatMap fun i => pages (j + i + 1))
          (requests ++ (List.range (n + 1)).map fun i => j + i + 1) := by
  induction n with
  | zero =>
    intro j fuel cs requests hok _ hlast hfuel
    obtain ⟨f, rfl⟩ := Nat.exists_eq_succ_of_ne_zero (by omega : fuel ≠ 0)
    obtain ⟨e, he⟩ := hok 0 (Nat.le_refl 0)
    rw [fetchLoop_succ_ok api f cs j requests e _ he]
    have hl : pages (j + 1) = [] := hlast
    simp [hl, List.range_succ]
  | succ n ih =>
    intro j fuel cs requests hok hne hlast hfuel
    obtain ⟨f, rfl⟩ := Nat.exists_eq_succ_of_ne_zero (by omega : fuel ≠ 0)
    obtain ⟨e, he⟩ := hok 0 (Nat.zero_le _)
    have hne0 : pages (j + 1) ≠ [] := hne 0 (Nat.succ_pos n)
    rw [fetchLoop_succ_ok api f cs j requests e _ he, if_pos hne0]
    rw [ih (j + 1) f (cs ++ pages (j + 1)) (requests ++ [j + 1])]
    · have hshift : ∀ i, j + 1 + i + 1 = j + (i + 1) + 1 := fun i => by omega
      have hflat : ((List.range (n + 1)).flatMap fun i => pages (j + i + 1)) =
          pages (j + 1) ++ (List.range n).flatMap fun i => pages (j + 1 + i + 1) := by
        rw [List.range_succ_eq_map n]
        simp [List.flatMap_map, hshift]
      have hmap : ((List.range (n + 1 + 1)).map fun i => j + i + 1) =
          (j + 1) :: (List.range (n + 1)).map fun i => j + 1 + i + 1 := by
        rw [List.range_succ_eq_map (n + 1)]
        simp [List.map_map, Function.comp_def, hshift]
      rw [hflat, hmap]
      simp [List.append_assoc]
    · intro i hi
      have := hok (i + 1) (by omega)
      rwa [show j + (i + 1) + 1 = j + 1 + i + 1 by omega] at this
    · intro i hi
      have := hne (i + 1) (by omega)
      rwa [show j + (i + 1) + 1 = j + 1 + i + 1 by omega] at this
    · rwa [show j + (n + 1) + 1 = j + 1 + n + 1 by omega] at hlast
    · omega

/-- C6: pagination.  If the requests for pages 1..k+1 all get status 200,
pages 1..k hold a non-empty customer list and page k+1 an empty one, then the
fetch loop of `processEvent` (given at least k+1 iterations) issues exactly
the requests with page parameters 1, 2, ..., k+1 in that order and leaves with
the concatenation of pages 1..k in page order, which is what `parseCustomers`
is then applied to. -/
theorem fetchLoop_pagination (api : Nat → HttpOutcome) (pages : Nat → List Customer)
    (k fuel : Nat)
    (hok : ∀ p, 1 ≤ p → p ≤ k + 1 → ∃ e, api p = .response 200 e (pages p))
    (hne : ∀ p, 1 ≤ p → p ≤ k → pages p ≠ [])
    (hlast : pages (k + 1) = [])
    (hfuel : k + 1 ≤ fuel) :
    fetchLoop api fuel [] 0 [] =
      .done ((List.range k).flatMap fun i => pages (i + 1))
        ((List.range (k + 1)).map fun i => i + 1) ∧
    (processEvent api fuel).requests = (List.range (k + 1)).map (fun i => i + 1) ∧
    (processEvent api fuel).parsed = some ((List.range k).flatMap fun i => pages (i + 1)) := by
  have hloop : fetchLoop api fuel [] 0 [] =
      .done ((List.range k).flatMap fun i => pages (i + 1))
        ((List.range (k + 1)).map fun i => i + 1) := by
    rw [fetchLoop_done api pages k 0 fuel [] []]
    · simp
    · intro i hi
      simpa using hok (i + 1) (by omega) (by omega)
    · intro i hi
      simpa using hne (i + 1) (by omega) (by omega)
    · simpa using hlast
    · exact hfuel
  refine ⟨hloop, ?_, ?_⟩
  · unfold processEvent
    rw [hloop]
    dsimp only
    split <;> rfl
  · unfold processEvent
    rw [hloop]
    dsimp only
    split <;> rfl

/-- Witness for C6: page sizes 1, 1, 0 give exactly three requests, two of
which contribute data. -/
theorem fetchLoop_pagination_witness :
    (∀ p, 1 ≤ p → p ≤ 2 + 1 → ∃ e, sampleApi p = .response 200 e (samplePages p)) ∧
    (∀ p, 1 ≤ p → p ≤ 2 → samplePages p ≠ []) ∧
    samplePages (2 + 1) = [] ∧
    2 + 1 ≤ 5 ∧
    (fetchLoop sampleApi 5 [] 0 [] =
      .done ((List.range 2).flatMap fun i => samplePages (i + 1))
        ((List.range (2 + 1)).map fun i => i + 1) ∧
    (processEvent sampleApi 5).requests = (List.range (2 + 1)).map (fun i => i + 1) ∧
    (processEvent sampleApi 5).parsed =
      some ((List.range 2).flatMap fun i => samplePages (i + 1))) :=
  have hok : ∀ p, 1 ≤ p → p ≤ 2 + 1 → ∃ e, sampleApi p = .response 200 e (samplePages p) :=
    fun p _ _ => ⟨false, rfl⟩
  have hne : ∀ p, 1 ≤ p → p ≤ 2 → samplePages p ≠ [] := by
    intro p h1 h2
    have hp : p = 1 ∨ p = 2 := by omega
    simp [samplePages, hp]
  ⟨hok, hne, by decide, by decide,
    fetchLoop_pagination sampleApi samplePages 2 5 hok hne (by decide) (by decide)⟩

/-- C8 (the code at the failing input): a first page with status 200 whose
body does not decode makes `getEventPageIndex` return an empty list and no
error, and `processEvent` then returns normally after one request, having
applied `parseCustomers` and written the CSV header. -/
theorem processEvent_undecodable_body :
    getEventPageIndex undecodableApi 0 = .ok [] ∧
    processEvent undecodableApi 1 =
      { requests := [1], parsed := some [], stdout := [csvHeader], exit := .returned } := by
  constructor <;> rfl

/-- The fetch loop from any state: over `n` non-empty pages followed by a
request that fails, it ends fatally after `n + 1` requests. -/
theorem fetchLoop_fatal (api : Nat → HttpOutcome) (n : Nat) :
    ∀ (j fuel : Nat) (cs : List Customer) (requests : List Nat),
      (∀ i, i < n → ∃ e page, api (j + i + 1) = .response 200 e page ∧ page ≠ []) →
      (∃ err, getEventPageIndex api (j + n) = .error err) →
      n + 1 ≤ fuel →
      fetchLoop api fuel cs j requests =
        .fatal (requests ++ (List.range (n + 1)).map fun i => j + i + 1) := by
  induction n with
  | zero =>
    intro j fuel cs requests _ hbad hfuel
    obtain ⟨f, rfl⟩ := Nat.exists_eq_succ_of_ne_zero (by omega : fuel ≠ 0)
    obtain ⟨err, herr⟩ := hbad
    rw [Nat.add_zero] at herr
    rw [fetchLoop, herr]
    simp [pageParam, List.range_succ]
  | succ n ih =>
    intro j fuel cs requests hok hbad hfuel
    obtain ⟨f, rfl⟩ := Nat.exists_eq_succ_of_ne_zero (by omega : fuel ≠ 0)
    obtain ⟨e, page, he, hne0⟩ := hok 0 (Nat.succ_pos n)
    rw [fetchLoop_succ_ok api f cs j requests e page he, if_pos hne0]
    rw [ih (j + 1) f (cs ++ page) (requests ++ [j + 1])]
    · have hshift : ∀ i, j + 1 + i + 1 = j + (i + 1) + 1 := fun i => by omega
      have hmap : ((List.range (n + 1 + 1)).map fun i => j + i + 1) =
          (j + 1) :: (List.range (n + 1)).map fun i => j + 1 + i + 1 := by
        rw [List.range_succ_eq_map (n + 1)]
        simp [List.map_map, Function.comp_def, hshift]
      rw [hmap]
      simp [List.append_assoc]
    · intro i hi
      have := hok (i + 1) (by omega)
      rwa [show j + (i + 1) + 1 = j + 1 + i + 1 by omega] at this
    · rwa [show j + (n + 1) = j + 1 + n by omega] at hbad
    · omega

/-- C9: if the requests for pages 1..j get status 200 with non-empty customer
lists and the request for page j+1 ends in a transport failure or a status
other than 200, then `getEventPageIndex` returns an error for that page and
`processEvent` (given at least j+1 iterations) ends fatally: the requests are
exactly pages 1..j+1, `parseCustomers` is not called and no CSV record, not
even the header, is written. -/
theorem processEvent_fetch_failure (api : Nat → HttpOutcome) (j fuel : Nat)
    (hok : ∀ p, 1 ≤ p → p ≤ j → ∃ e page, api p = .response 200 e page ∧ page ≠ [])
    (hbad : api (j + 1) = .transportError ∨
      ∃ status e page, api (j + 1) = .response status e page ∧ status ≠ 200)
    (hfuel : j + 1 ≤ fuel) :
    (∃ err, getEventPageIndex api j = .error err) ∧
    processEvent api fuel =
      { requests := (List.range (j + 1)).map fun i => i + 1
        parsed := none
        stdout := []
        exit := .fatalFetch } := by
  have herr : ∃ err, getEventPageIndex api j = .error err := by
    rcases hbad with h | ⟨status, e, page, h, hs⟩
    · exact ⟨.callFailed, by simp [getEventPageIndex, pageParam, h]⟩
    · exact ⟨.nonSuccessStatus status, by simp [getEventPageIndex, pageParam, h, hs]⟩
  refine ⟨herr, ?_⟩
  have hloop : fetchLoop api fuel [] 0 [] =
      .fatal ((List.range (j + 1)).map fun i => i + 1) := by
    rw [fetchLoop_fatal api j 0 fuel [] []]
    · simp
    · intro i hi
      simpa using hok (i + 1) (by omega) (by omega)
    · simpa using herr
    · exact hfuel
  unfold processEvent
  rw [hloop]

/-- Witness for C9: the first page holds one customer, the second request
gets status 500. -/
theorem processEvent_fetch_failure_witness :
    (∀ p, 1 ≤ p → p ≤ 1 → ∃ e page, failingApi p = .response 200 e page ∧ page ≠ []) ∧
    (failingApi (1 + 1) = .transportError ∨
      ∃ status e page, failingApi (1 + 1) = .response status e page ∧ status ≠ 200) ∧
    1 + 1 ≤ 4 ∧
    ((∃ err, getEventPageIndex failingApi 1 = .error err) ∧
    processEvent failingApi 4 =
      { requests := (List.range (1 + 1)).map fun i => i + 1
        parsed := none
        stdout := []
        exit := .fatalFetch }) :=
  have hok : ∀ p, 1 ≤ p → p ≤ 1 →
      ∃ e page, failingApi p = .response 200 e page ∧ page ≠ [] := by
    intro p h1 h2
    have hp : p = 1 := by omega
    subst hp
    exact ⟨false, [janeDoe], rfl, by simp⟩
  have hbad : failingApi (1 + 1) = .transportError ∨
      ∃ status e page, failingApi (1 + 1) = .response status e page ∧ status ≠ 200 :=
    Or.inr ⟨500, false, [], rfl, by decide⟩
  ⟨hok, hbad, by decide, processEvent_fetch_failure failingApi 1 4 hok hbad (by decide)⟩

/-- Rounding away the low bits of `m` leaves a non-zero result when `m` is
more than half of the unit kept. -/
theorem Float32.shiftRound_ne_zero (m sh : Nat) (h : 2 ^ sh < 2 * m) :
    Float32.shiftRound m sh ≠ 0 := by
  have hpos : 0 < 2 ^ sh := Nat.pos_pow_of_pos sh (by decide)
  unfold Float32.shiftRound
  by_cases hq : m / 2 ^ sh = 0
  · have hlt : m < 2 ^ sh := by
      rcases Nat.lt_or_ge m (2 ^ sh) with hlt | hge
      · exact hlt
      · have := Nat.div_pos hge hpos
        omega
    have hmod : m % 2 ^ sh = m := Nat.mod_eq_of_lt hlt
    simp only [hmod, hq]
    rw [if_pos (Or.inl h)]
    decide
  · simp only
    split
    · exact Nat.succ_ne_zero _
    · exact hq

/-- The encoding of a rounded non-zero exact value above `2^-150` is not the
encoding of zero. -/
theorem Float32.roundCode_ne_zero (m : Nat) (e : Int) (hm : m ≠ 0)
    (hbig : e < -149 → 2 ^ (-149 - e).toNat < 2 * m) :
    Float32.roundCode m e ≠ 0 := by
  unfold Float32.roundCode
  simp only
  generalize hq' : max (e + (Float32.ilog2 m : Int) - 23) (-149) = q
  have hqge : -149 ≤ q := by rw [← hq']; exact le_max_right _ _
  rcases Int.lt_or_le (-149) q with hq | hq
  · have h1 : 1 ≤ (q + 149).toNat := by omega
    have h2 : 8388608 ≤ (q + 149).toNat * 8388608 := Nat.le_mul_of_pos_left _ h1
    omega
  · have hqeq : q = -149 := by omega
    subst hqeq
    have hr : (if (-149 : Int) ≤ e then m * 2 ^ (e - -149).toNat
        else Float32.shiftRound m (-149 - e).toNat) ≠ 0 := by
      split
      · exact Nat.mul_ne_zero hm (Nat.pos_iff_ne_zero.mp (Nat.pos_pow_of_pos _ (by decide)))
      · rename_i hlt
        exact Float32.shiftRound_ne_zero m _ (hbig (by omega))
    omega

/-- The result of rounding a non-zero exact value above `2^-150` is an
infinity or a non-zero finite value, with the sign of the exact value. -/
theorem Float32.roundPack_ne_zero (neg : Bool) (m : Nat) (e : Int) (hm : m ≠ 0)
    (hbig : e < -149 → 2 ^ (-149 - e).toNat < 2 * m) :
    Float32.roundPack neg m e = Float32.inf neg ∨
      ∃ c : Fin 2139095040, c.val ≠ 0 ∧ Float32.roundPack neg m e = Float32.finite neg c := by
  unfold Float32.roundPack
  rw [if_neg hm]
  by_cases h : Float32.roundCode m e < 2139095040
  · rw [dif_pos h]
    exact Or.inr ⟨⟨_, h⟩, Float32.roundCode_ne_zero m e hm hbig, rfl⟩
  · rw [dif_neg h]
    exact Or.inl rfl

/-- The significand of a non-zero encoding is at least the encoding, capped
at `2^23`. -/
theorem Float32.mant_ge (c k : Nat) (hk : k ≤ 8388608) (h : k ≤ c) : k ≤ Float32.mant c := by
  unfold Float32.mant
  split <;> omega

/-- The exponent of a finite value is at least `-149`. -/
theorem Float32.expo_ge (c : Nat) : -149 ≤ Float32.expo c := by
  unfold Float32.expo
  split <;> omega

/-- A power of two with a bounded exponent is bounded. -/
theorem two_pow_toNat_le (x : Int) (k : Nat) (h : x ≤ k) : 2 ^ x.toNat ≤ 2 ^ k :=
  Nat.pow_le_pow_right (by decide) (by omega)

/-- The product of a positive value above `14 * 2^-149` (or `+Inf`) with the
constant `0.035` is positive and not zero. -/
theorem Float32.mul_c035_pos (d : Float32) (h : Float32.lt Float32.tiny d = true) :
    d.mul Float32.c035 = Float32.inf false ∨
      ∃ c : Fin 2139095040, c.val ≠ 0 ∧ d.mul Float32.c035 = Float32.finite false c := by
  cases d with
  | nan => exact absurd h (by decide)
  | inf neg =>
    cases neg with
    | true => exact absurd h (by decide)
    | false => exact Or.inl (by decide)
  | finite neg c =>
    cases neg with
    | true =>
      simp only [Float32.lt, Float32.key, Float32.tiny, decide_eq_true_eq] at h
      simp at h
      omega
    | false =>
      have hc : 15 ≤ c.val := by
        simp only [Float32.lt, Float32.key, Float32.tiny, decide_eq_true_eq] at h
        simp at h
        omega
      have hm35 : Float32.mant 1024416809 = 9395241 := by decide
      have he35 : Float32.expo 1024416809 = -28 := by decide
      have hm : 15 ≤ Float32.mant c.val := Float32.mant_ge c.val 15 (by decide) hc
      have he : -149 ≤ Float32.expo c.val := Float32.expo_ge c.val
      have hmul : (Float32.finite false c).mul Float32.c035 =
          Float32.roundPack false (Float32.mant c.val * 9395241) (Float32.expo c.val + -28) := by
        simp only [Float32.mul, Float32.c035, hm35, he35, Bool.xor_false]
      rw [hmul]
      apply Float32.roundPack_ne_zero
      · exact Nat.mul_ne_zero (by omega) (by decide)
      · intro hlt
        have hp := two_pow_toNat_le (-149 - (Float32.expo c.val + -28)) 28 (by omega)
        have h28 : (2 : Nat) ^ 28 = 268435456 := by decide
        omega

/-- The product of a positive non-zero value (or `+Inf`) with the constant
`-1` is strictly negative. -/
theorem Float32.mul_negOne_neg (x : Float32)
    (hx : x = Float32.inf false ∨
      ∃ c : Fin 2139095040, c.val ≠ 0 ∧ x = Float32.finite false c) :
    Float32.lt (x.mul Float32.negOne) Float32.zero = true := by
  rcases hx with rfl | ⟨c, hc, rfl⟩
  · decide
  · have hm1 : Float32.mant 1065353216 = 8388608 := by decide
    have he1 : Float32.expo 1065353216 = -23 := by decide
    have hm : 1 ≤ Float32.mant c.val := Float32.mant_ge c.val 1 (by decide) (by omega)
    have he : -149 ≤ Float32.expo c.val := Float32.expo_ge c.val
    have hmul : (Float32.finite false c).mul Float32.negOne =
        Float32.roundPack true (Float32.mant c.val * 8388608) (Float32.expo c.val + -23) := by
      simp only [Float32.mul, Float32.negOne, hm1, he1, Bool.false_xor]
    rw [hmul]
    have hres := Float32.roundPack_ne_zero true (Float32.mant c.val * 8388608)
      (Float32.expo c.val + -23) (Nat.mul_ne_zero (by omega) (by decide)) (by
        intro hlt
        have hp := two_pow_toNat_le (-149 - (Float32.expo c.val + -23)) 23 (by omega)
        have h23 : (2 : Nat) ^ 23 = 8388608 := by decide
        omega)
    rcases hres with h | ⟨c2, hc2, h⟩
    · rw [h]; decide
    · rw [h]
      simp only [Float32.lt, Float32.key, Float32.zero, decide_eq_true_eq]
      simp
      omega

/-- A value above `14 * 2^-149` is not zero. -/
theorem Float32.isZero_of_tiny_lt (d : Float32) (h : Float32.lt Float32.tiny d = true) :
    d.isZero = false := by
  cases d with
  | nan => rfl
  | inf neg => rfl
  | finite neg c =>
    cases neg with
    | true =>
      simp only [Float32.lt, Float32.key, Float32.tiny, decide_eq_true_eq] at h
      simp at h
      omega
    | false =>
      simp only [Float32.lt, Float32.key, Float32.tiny, decide_eq_true_eq] at h
      simp at h
      simp only [Float32.isZero, decide_eq_false_iff_not]
      omega

/-- C7 (counterexamples): for the donation -1 the "Credit Card Fees" line has
the amount `+0.035`, and for the donation `14 * 2^-149` it has the amount
`-0`; neither is strictly negative although both donations are non-zero. -/
theorem creditCardFee_not_always_negative :
    (refund42.Donation.isZero = false ∧
      (parseTransaction janeDoe refund42).map
          (List.filter fun l => l.LineItem = "Credit Card Fees") =
        some [specLine janeDoe refund42 "2023-05-01" "Credit Card Fees" Float32.c035] ∧
      Float32.lt Float32.c035 Float32.zero = false) ∧
    (dust42.Donation.isZero = false ∧
      (parseTransaction janeDoe dust42).map
          (List.filter fun l => l.LineItem = "Credit Card Fees") =
        some [specLine janeDoe dust42 "2023-05-01" "Credit Card Fees"
          (Float32.finite true 0)] ∧
      Float32.lt (Float32.finite true 0) Float32.zero = false) := by
  refine ⟨⟨by decide, by decide, by decide⟩, by decide, by decide, by decide⟩

/-- C7 (amended): for a transaction whose creation date parses and whose
donation is greater than `14 * 2^-149` (every positive donation whose product
with 0.035 does not round to zero, `+Inf` included), `parseTransaction`
returns a list with a "Credit Card Fees" line, and the amount of every such
line is strictly negative. -/
theorem creditCardFee_negative (c : Customer) (t : Transaction)
    (hdate : (formatDateString t.CreationDate).isSome = true)
    (hpos : Float32.lt Float32.tiny t.Donation = true) :
    ∃ ls, parseTransaction c t = some ls ∧
      (∃ l ∈ ls, l.LineItem = "Credit Card Fees") ∧
      ∀ l ∈ ls, l.LineItem = "Credit Card Fees" → Float32.lt l.Amount Float32.zero = true := by
  obtain ⟨date, hd⟩ := Option.isSome_iff_exists.mp hdate
  have hz : t.Donation.isZero = false := Float32.isZero_of_tiny_lt _ hpos
  have hfee : Float32.lt ((t.Donation.mul Float32.c035).mul Float32.negOne) Float32.zero = true :=
    Float32.mul_negOne_neg _ (Float32.mul_c035_pos _ hpos)
  have hdon : specDonationLines c t date =
      [specLine c t date "Contributed Income:Unrestricted Contributions" t.Donation,
       specLine c t date "Credit Card Fees"
         ((t.Donation.mul Float32.c035).mul Float32.negOne)] := by
    simp [specDonationLines, hz]
  refine ⟨_, parseTransaction_some c t date hd, ?_, ?_⟩
  · refine ⟨specLine c t date "Credit Card Fees"
      ((t.Donation.mul Float32.c035).mul Float32.negOne), ?_, rfl⟩
    rw [hdon]
    simp
  · intro l hl hlabel
    rw [hdon, List.mem_append] at hl
    rcases hl with hl | hl
    · simp only [List.mem_cons, List.mem_singleton, List.not_mem_nil, or_false] at hl
      rcases hl with h | h
      · rw [h] at hlabel
        exact absurd (show "Contributed Income:Unrestricted Contributions" = "Credit Card Fees"
          from hlabel) (by decide)
      · rw [h]
        exact hfee
    · rcases ticket_labels c t date t.Tickets l hl with h | h
      · rw [h] at hlabel
        exact absurd hlabel (by decide)
      · rw [h] at hlabel
        exact absurd hlabel (by decide)

/-- Witness for C7 (amended) at the transaction of the end-to-end example,
donation 100. -/
theorem creditCardFee_negative_witness :
    (formatDateString order42.CreationDate).isSome = true ∧
    Float32.lt Float32.tiny order42.Donation = true ∧
    ∃ ls, parseTransaction janeDoe order42 = some ls ∧
      (∃ l ∈ ls, l.LineItem = "Credit Card Fees") ∧
      ∀ l ∈ ls, l.LineItem = "Credit Card Fees" → Float32.lt l.Amount Float32.zero = true :=
  ⟨by decide, by decide, creditCardFee_negative janeDoe order42 (by decide) (by decide)⟩

/-- A decimal digit character has a code between 48 and 57. -/
theorem isDigit_bounds (c : Char) (h : c.isDigit = true) : 48 ≤ c.toNat ∧ c.toNat ≤ 57 := by
  simp only [Char.isDigit, Bool.and_eq_true, decide_eq_true_eq] at h
  exact ⟨h.1, h.2⟩

/-- Printing the value of a digit character gives the character back. -/
theorem digitChar_digitVal (c : Char) (h : c.isDigit = true) :
    Char.ofNat (48 + digitVal c) = c := by
  have hb := isDigit_bounds c h
  unfold digitVal
  rw [show 48 + (c.toNat - 48) = c.toNat by omega]
  exact Char.ofNat_toNat c

/-- The value of a digit character is at most nine. -/
theorem digitVal_le (c : Char) (h : c.isDigit = true) : digitVal c ≤ 9 := by
  have hb := isDigit_bounds c h
  unfold digitVal
  omega

/-- A digit character is not a sign. -/
theorem isDigit_ne_sign (c : Char) (h : c.isDigit = true) : c ≠ '-' ∧ c ≠ '+' := by
  constructor <;> (intro hc; subst hc; exact absurd h (by decide))

/-- The function getnum on two leading digits. -/
theorem getnum_two_digits (a b : Char) (rest : List Char) ( fixed : Bool)
    (ha : a.isDigit = true) (hb : b.isDigit = true) :
    getnum (a :: b :: rest) fixed = some (digitVal a * 10 + digitVal b, rest) := by
  simp [getnum, isDigit, ha, hb]

/-- One step of leadingInt on a digit, far from overflow. -/
theorem leadingInt_digit (c : Char) (cs : List Char) (x : Nat) (hc : c.isDigit = true)
    (hx : x ≤ 99999) :
    leadingInt (c :: cs) x = leadingInt cs (x * 10 + digitVal c) := by
  have hd := digitVal_le c hc
  rw [leadingInt]
  simp only [hc, Bool.not_true, Bool.false_eq_true, if_false]
  rw [if_neg (by omega), if_neg (by omega)]

/-- The function atoi on a list of at most five digits. -/
theorem atoi_four_digits (a b c d : Char) (ha : a.isDigit = true) (hb : b.isDigit = true)
    (hc : c.isDigit = true) (hd : d.isDigit = true) :
    atoi [a, b, c, d] =
      some ((((digitVal a * 10 + digitVal b) * 10 + digitVal c) * 10 + digitVal d : Nat) : Int) := by
  have h1 := digitVal_le a ha
  have h2 := digitVal_le b hb
  have h3 := digitVal_le c hc
  have hs := isDigit_ne_sign a ha
  unfold atoi
  simp only [List.head?_cons, Option.some.injEq, hs.1, hs.2, or_self, if_false]
  rw [leadingInt_digit a _ 0 ha (by omega), leadingInt_digit b _ _ hb (by omega),
    leadingInt_digit c _ _ hc (by omega), leadingInt_digit d _ _ hd (by omega)]
  simp [leadingInt]

/-- The function atoi on three digits. -/
theorem atoi_three_digits (a b c : Char) (ha : a.isDigit = true) (hb : b.isDigit = true)
    (hc : c.isDigit = true) :
    atoi [a, b, c] = some (((digitVal a * 10 + digitVal b) * 10 + digitVal c : Nat) : Int) := by
  have h1 := digitVal_le a ha
  have h2 := digitVal_le b hb
  have hs := isDigit_ne_sign a ha
  unfold atoi
  simp only [List.head?_cons, Option.some.injEq, hs.1, hs.2, or_self, if_false]
  rw [leadingInt_digit a _ 0 ha (by omega), leadingInt_digit b _ _ hb (by omega),
    leadingInt_digit c _ _ hc (by omega)]
  simp [leadingInt]

/-- Two-digit fields print as their two digits. -/
theorem appendInt_two (a b : Char) (ha : a.isDigit = true) (hb : b.isDigit = true) :
    appendInt (digitVal a * 10 + digitVal b) 2 = [a, b] := by
  have h1 := digitVal_le a ha
  have h2 := digitVal_le b hb
  unfold appendInt
  rw [if_pos (by omega)]
  have e1 : (digitVal a * 10 + digitVal b) / 10 ^ 1 % 10 = digitVal a := by omega
  have e0 : (digitVal a * 10 + digitVal b) / 10 ^ 0 % 10 = digitVal b := by omega
  simp only [List.range_succ, List.range_zero, List.nil_append, List.reverse_append,
    List.reverse_cons, List.reverse_nil, List.singleton_append, List.map_cons, List.map_nil,
    e1, e0, digitChar_digitVal a ha, digitChar_digitVal b hb]

/-- A four-digit year prints as its four digits. -/
theorem appendInt_four (a b c d : Char) (ha : a.isDigit = true) (hb : b.isDigit = true)
    (hc : c.isDigit = true) (hd : d.isDigit = true) :
    appendInt (((digitVal a * 10 + digitVal b) * 10 + digitVal c) * 10 + digitVal d) 4 =
      [a, b, c, d] := by
  have h1 := digitVal_le a ha
  have h2 := digitVal_le b hb
  have h3 := digitVal_le c hc
  have h4 := digitVal_le d hd
  unfold appendInt
  rw [if_pos (by omega)]
  have e3 : (((digitVal a * 10 + digitVal b) * 10 + digitVal c) * 10 + digitVal d) / 10 ^ 3 % 10 =
      digitVal a := by omega
  have e2 : (((digitVal a * 10 + digitVal b) * 10 + digitVal c) * 10 + digitVal d) / 10 ^ 2 % 10 =
      digitVal b := by omega
  have e1 : (((digitVal a * 10 + digitVal b) * 10 + digitVal c) * 10 + digitVal d) / 10 ^ 1 % 10 =
      digitVal c := by omega
  have e0 : (((digitVal a * 10 + digitVal b) * 10 + digitVal c) * 10 + digitVal d) / 10 ^ 0 % 10 =
      digitVal d := by omega
  simp only [List.range_succ, List.range_zero, List.nil_append, List.reverse_append,
    List.reverse_cons, List.reverse_nil, List.singleton_append, List.map_cons, List.map_nil,
    List.append_assoc, List.cons_append,
    e3, e2, e1, e0, digitChar_digitVal a ha, digitChar_digitVal b hb, digitChar_digitVal c hc,
    digitChar_digitVal d hd]

/-- The function skip on an input that starts with the literal. -/
theorem skip_cons_self (c : Char) (rest : List Char) : skip (c :: rest) c = some rest := by
  simp [skip]

/-- The function parseNanoseconds on a period and three digits. -/
theorem parseNanoseconds_three_digits (a b c : Char) (rest : List Char)
    (ha : a.isDigit = true) (hb : b.isDigit = true) (hc : c.isDigit = true) :
    parseNanoseconds ('.' :: a :: b :: c :: rest) 4 =
      some ((((digitVal a * 10 + digitVal b) * 10 + digitVal c : Nat) : Int) * 10 ^ 6) := by
  have hnn : ¬ ((((digitVal a * 10 + digitVal b) * 10 + digitVal c : Nat) : Int) < 0) := by
    omega
  simp only [parseNanoseconds, List.take_succ_cons, List.take_zero, List.drop_succ_cons,
    List.drop_zero, atoi_three_digits a b c ha hb hc, true_or, not_true_eq_false,
    Bool.not_true, decide_True, Bool.false_eq_true, if_false, hnn]

/-- C10: for every input of the form YYYY-MM-DDTHH:MM:SS.mmmZ (all seventeen
places digits) with a month in 1..12, a day that exists in that month of that
year, an hour below 24 and minute and second below 60, `formatDateString`
succeeds and returns the first ten characters of the input, YYYY-MM-DD. -/
theorem formatDateString_valid
    (y1 y2 y3 y4 m1 m2 d1 d2 h1 h2 n1 n2 s1 s2 f1 f2 f3 : Char)
    (hdigits : ∀ c ∈ [y1, y2, y3, y4, m1, m2, d1, d2, h1, h2, n1, n2, s1, s2, f1, f2, f3],
      c.isDigit = true)
    (hmonth : 1 ≤ digitVal m1 * 10 + digitVal m2 ∧ digitVal m1 * 10 + digitVal m2 ≤ 12)
    (hday : 1 ≤ digitVal d1 * 10 + digitVal d2 ∧
      digitVal d1 * 10 + digitVal d2 ≤
        daysIn (digitVal m1 * 10 + digitVal m2)
          ((((digitVal y1 * 10 + digitVal y2) * 10 + digitVal y3) * 10 + digitVal y4 : Nat) : Int))
    (hhour : digitVal h1 * 10 + digitVal h2 < 24)
    (hmin : digitVal n1 * 10 + digitVal n2 < 60)
    (hsec : digitVal s1 * 10 + digitVal s2 < 60) :
    formatDateString
        (String.mk [y1, y2, y3, y4, '-', m1, m2, '-', d1, d2, 'T', h1, h2, ':', n1, n2, ':',
          s1, s2, '.', f1, f2, f3, 'Z']) =
      some (String.mk [y1, y2, y3, y4, '-', m1, m2, '-', d1, d2]) := by
  simp only [List.mem_cons, List.mem_singleton, List.not_mem_nil, or_false, forall_eq_or_imp,
    forall_eq] at hdigits
  obtain ⟨hy1, hy2, hy3, hy4, hm1, hm2, hd1, hd2, hh1, hh2, hn1, hn2, hs1, hs2, hf1, hf2, hf3⟩ :=
    hdigits
  have hparse : timeParse [y1, y2, y3, y4, '-', m1, m2, '-', d1, d2, 'T', h1, h2, ':', n1, n2,
      ':', s1, s2, '.', f1, f2, f3, 'Z'] =
      some { year := ((((digitVal y1 * 10 + digitVal y2) * 10 + digitVal y3) * 10 + digitVal y4
                        : Nat) : Int)
             month := digitVal m1 * 10 + digitVal m2
             day := digitVal d1 * 10 + digitVal d2
             hour := digitVal h1 * 10 + digitVal h2
             min := digitVal n1 * 10 + digitVal n2
             sec := digitVal s1 * 10 + digitVal s2
             nsec := (((digitVal f1 * 10 + digitVal f2) * 10 + digitVal f3 : Nat) : Int)
                        * 10 ^ 6 } := by
    have c1 : (decide (digitVal m1 * 10 + digitVal m2 ≤ 0) ||
        decide (12 < digitVal m1 * 10 + digitVal m2)) = false := by
      simp only [Bool.or_eq_false_iff, decide_eq_false_iff_not]
      omega
    have c2 : ¬ (24 ≤ digitVal h1 * 10 + digitVal h2) := by omega
    have c3 : ¬ (60 ≤ digitVal n1 * 10 + digitVal n2) := by omega
    have c4 : ¬ (60 ≤ digitVal s1 * 10 + digitVal s2) := by omega
    have c5 : (decide (digitVal d1 * 10 + digitVal d2 < 1) ||
        decide (digitVal d1 * 10 + digitVal d2 >
          daysIn (digitVal m1 * 10 + digitVal m2)
            ((((digitVal y1 * 10 + digitVal y2) * 10 + digitVal y3) * 10 + digitVal y4 : Nat)
              : Int))) = false := by
      simp only [Bool.or_eq_false_iff, decide_eq_false_iff_not]
      omega
    unfold timeParse
    simp only [List.length_cons, List.length_nil, isDigit, List.get?_cons_zero, hy1,
      List.take_succ_cons, List.take_zero, List.drop_succ_cons, List.drop_zero,
      atoi_four_digits y1 y2 y3 y4 hy1 hy2 hy3 hy4, Nat.reduceAdd, Nat.reduceLT,
      decide_False, Bool.not_true, Bool.or_false, Bool.false_eq_true, if_false,
      Option.some_bind, skip_cons_self, c1, c2, c3, c4, c5,
      getnum_two_digits m1 m2 _ true hm1 hm2, getnum_two_digits d1 d2 _ true hd1 hd2,
      getnum_two_digits h1 h2 _ false hh1 hh2, getnum_two_digits n1 n2 _ true hn1 hn2,
      getnum_two_digits s1 s2 _ true hs1 hs2,
      parseNanoseconds_three_digits f1 f2 f3 _ hf1 hf2 hf3, ne_eq, not_true_eq_false]
  unfold formatDateString
  simp only [hparse]
  unfold timeFormat
  simp only [Int.toNat_ofNat, appendInt_four y1 y2 y3 y4 hy1 hy2 hy3 hy4,
    appendInt_two m1 m2 hm1 hm2, appendInt_two d1 d2 hd1 hd2, List.cons_append,
    List.nil_append, List.append_assoc]

/-- Witness for C10: the example of the specification,
"2023-05-01T12:00:00.000Z" gives "2023-05-01". -/
theorem formatDateString_valid_witness :
    formatDateString "2023-05-01T12:00:00.000Z" = some "2023-05-01" :=
  formatDateString_valid '2' '0' '2' '3' '0' '5' '0' '1' '1' '2' '0' '0' '0' '0' '0' '0' '0'
    (by decide) (by decide) (by decide) (by decide) (by decide) (by decide)

/-- A conditional that fails in one branch gives a result only in the other. -/
theorem ite_none_eq_some {α : Type} {c : Prop} [Decidable c] {x : Option α} {y : α} :
    (if c then none else x) = some y ↔ ¬ c ∧ x = some y := by
  split <;> simp [*]

/-- When skip succeeds the input starts with the literal. -/
theorem skip_eq_some (s : List Char) (c : Char) (rest : List Char)
    (h : skip s c = some rest) : s = c :: rest := by
  cases s with
  | nil => simp [skip] at h
  | cons v tl =>
    simp only [skip] at h
    split at h
    · rename_i hv
      simp only [Option.some.injEq] at h
      rw [hv, h]
    · simp at h

/-- When getnum succeeds the input starts with two digits, or, if not fixed,
with one digit. -/
theorem getnum_eq_some (s : List Char) ( fixed : Bool) (p : Nat × List Char)
    (h : getnum s fixed = some p) :
    (∃ a b, s = a :: b :: p.2 ∧ a.isDigit = true ∧ b.isDigit = true ∧
      p.1 = digitVal a * 10 + digitVal b) ∨
    (fixed = false ∧ ∃ a, s = a :: p.2 ∧ a.isDigit = true ∧ p.1 = digitVal a) := by
  cases s with
  | nil => simp [getnum, isDigit] at h
  | cons a tl =>
    cases tl with
    | nil =>
      by_cases ha : a.isDigit = true
      · cases fixed with
        | true => simp [getnum, isDigit, ha] at h
        | false =>
          simp [getnum, isDigit, ha] at h
          exact Or.inr ⟨rfl, a, by rw [← h], ha, by rw [← h]⟩
      · simp [getnum, isDigit, ha] at h
    | cons b tl =>
      by_cases ha : a.isDigit = true
      · by_cases hb : b.isDigit = true
        · simp [getnum, isDigit, ha, hb] at h
          exact Or.inl ⟨a, b, by rw [← h], ha, hb, by rw [← h]⟩
        · cases fixed with
          | true => simp [getnum, isDigit, ha, hb] at h
          | false =>
            simp [getnum, isDigit, ha, hb] at h
            exact Or.inr ⟨rfl, a, by rw [← h], ha, by rw [← h]⟩
      · simp [getnum, isDigit, ha] at h

/-- When leadingInt consumes the whole input, the input is all digits. -/
theorem leadingInt_all_digits (s : List Char) :
    ∀ (x q : Nat), leadingInt s x = some (q, []) → ∀ c ∈ s, c.isDigit = true := by
  induction s with
  | nil => intro x q _ c hc; simp at hc
  | cons a tl ih =>
    intro x q h c hc
    rw [leadingInt] at h
    by_cases ha : a.isDigit = true
    · simp only [ha, Bool.not_true, Bool.false_eq_true, if_false] at h
      split at h
      · simp at h
      · split at h
        · simp at h
        · rcases List.mem_cons.mp hc with rfl | hc
          · exact ha
          · exact ih _ _ h c hc
    · simp [ha] at h

/-- When atoi succeeds on an input that starts with a digit, the input is all
digits. -/
theorem atoi_digit_head (a : Char) (tl : List Char) (n : Int) (ha : a.isDigit = true)
    (h : atoi (a :: tl) = some n) : ∀ c ∈ a :: tl, c.isDigit = true := by
  have hs := isDigit_ne_sign a ha
  unfold atoi at h
  simp only [List.head?_cons, Option.some.injEq, hs.1, hs.2, or_self, if_false] at h
  split at h
  · rename_i q hq
    exact leadingInt_all_digits _ _ _ hq
  · simp at h

/-- When atoi succeeds on three characters, the last two are digits and the
first is a digit or a plus sign, or a minus sign, and then the result is the
negated value of the two digits. -/
theorem atoi_three (f1 f2 f3 : Char) (n : Int) (h : atoi [f1, f2, f3] = some n) :
    f2.isDigit = true ∧ f3.isDigit = true ∧
      (f1.isDigit = true ∨ f1 = '+' ∨
        (f1 = '-' ∧ n = -((digitVal f2 * 10 + digitVal f3 : Nat) : Int))) := by
  by_cases hminus : f1 = '-'
  · subst hminus
    unfold atoi at h
    simp only [List.head?_cons, true_or, if_true, List.drop_succ_cons, List.drop_zero] at h
    split at h
    · rename_i q hq
      have hall := leadingInt_all_digits _ _ _ hq
      have h2 := hall f2 (by simp)
      have h3 := hall f3 (by simp)
      have hd2 := digitVal_le f2 h2
      rw [leadingInt_digit f2 _ 0 h2 (by omega), leadingInt_digit f3 _ _ h3 (by omega)] at hq
      simp only [leadingInt, Option.some.injEq, Prod.mk.injEq, and_true] at hq
      simp only [decide_True, if_true, Option.some.injEq] at h
      refine ⟨h2, h3, Or.inr (Or.inr ⟨rfl, ?_⟩)⟩
      rw [← h, ← hq]
      simp
    · simp at h
  · by_cases hplus : f1 = '+'
    · subst hplus
      unfold atoi at h
      simp only [List.head?_cons, or_true, if_true, List.drop_succ_cons, List.drop_zero] at h
      split at h
      · rename_i q hq
        have hall := leadingInt_all_digits _ _ _ hq
        exact ⟨hall f2 (by simp), hall f3 (by simp), Or.inr (Or.inl rfl)⟩
      · simp at h
    · unfold atoi at h
      simp only [List.head?_cons, Option.some.injEq, hminus, hplus, or_self, if_false] at h
      split at h
      · rename_i q hq
        have hall := leadingInt_all_digits _ _ _ hq
        exact ⟨hall f2 (by simp), hall f3 (by simp), Or.inl (hall f1 (by simp))⟩
      · simp at h

/-- A digit character of value zero is the character `0`. -/
theorem eq_zero_char (c : Char) (hc : c.isDigit = true) (h : digitVal c = 0) : c = '0' := by
  have := digitChar_digitVal c hc
  rw [h] at this
  exact this.symm

/-- When parseNanoseconds succeeds on at least four characters, they are a
period or comma and then three digits, a plus sign and two digits, or `-00`. -/
theorem parseNanoseconds_eq_some (v : List Char) (ns : Int) (hlen : ¬ v.length < 4)
    (h : parseNanoseconds v 4 = some ns) :
    ∃ sep f1 f2 f3 rest, v = sep :: f1 :: f2 :: f3 :: rest ∧ (sep = '.' ∨ sep = ',') ∧
      (f1.isDigit = true ∨ f1 = '+' ∨ (f1 = '-' ∧ f2 = '0' ∧ f3 = '0')) ∧
      f2.isDigit = true ∧ f3.isDigit = true := by
  match v, hlen, h with
  | sep :: f1 :: f2 :: f3 :: rest, _, h =>
    simp only [parseNanoseconds, List.take_succ_cons, List.take_zero, List.drop_succ_cons,
      List.drop_zero] at h
    by_cases hsep : sep = '.' ∨ sep = ','
    · simp only [hsep, decide_True, Bool.not_true, Bool.false_eq_true, if_false] at h
      split at h
      · simp at h
      · rename_i n hn
        obtain ⟨h2, h3, hf1⟩ := atoi_three f1 f2 f3 n hn
        refine ⟨sep, f1, f2, f3, rest, rfl, hsep, ?_, h2, h3⟩
        rcases hf1 with hd | hp | ⟨hm, hval⟩
        · exact Or.inl hd
        · exact Or.inr (Or.inl hp)
        · refine Or.inr (Or.inr ⟨hm, ?_⟩)
          by_cases hneg : n < 0
          · simp [hneg] at h
          · have hz : digitVal f2 * 10 + digitVal f3 = 0 := by omega
            exact ⟨eq_zero_char f2 h2 (by omega), eq_zero_char f3 h3 (by omega)⟩
    · simp [hsep] at h
  | [], hlen, _ => simp at hlen
  | [_], hlen, _ => simp at hlen
  | [_, _], hlen, _ => simp at hlen
  | [_, _, _], hlen, _ => simp at hlen

/-- When the fixed getnum succeeds the input starts with two digits. -/
theorem getnum_fixed_eq_some (s : List Char) (p : Nat × List Char)
    (h : getnum s true = some p) :
    ∃ a b, s = a :: b :: p.2 ∧ a.isDigit = true ∧ b.isDigit = true ∧
      p.1 = digitVal a * 10 + digitVal b := by
  rcases getnum_eq_some s true p h with h1 | ⟨h2, _⟩
  · exact h1
  · simp at h2

/-- When the year chunk parses, the input starts with four digits, whose value
is the year. -/
theorem year_eq_some (value : List Char) (year : Int)
    (hc : ¬ ((decide (value.length < 4) || !isDigit value 0) = true))
    (h : atoi (value.take 4) = some year) :
    ∃ a b c d, value = a :: b :: c :: d :: value.drop 4 ∧
      (∀ x ∈ [a, b, c, d], x.isDigit = true) ∧
      year = ((((digitVal a * 10 + digitVal b) * 10 + digitVal c) * 10 + digitVal d : Nat) : Int) := by
  match value, hc, h with
  | a :: b :: c :: d :: rest, hc, h =>
    have ha : a.isDigit = true := by
      simp only [isDigit, List.get?_cons_zero, Bool.or_eq_true, decide_eq_true_eq,
        Bool.not_eq_true', not_or, Bool.not_eq_false] at hc
      exact hc.2
    simp only [List.take_succ_cons, List.take_zero] at h
    have hall := atoi_digit_head a [b, c, d] year ha h
    have hb := hall b (by simp)
    have hcc := hall c (by simp)
    have hd := hall d (by simp)
    rw [atoi_four_digits a b c d ha hb hcc hd] at h
    exact ⟨a, b, c, d, rfl, hall, (Option.some.inj h).symm⟩
  | [], hc, _ => simp at hc
  | [_], hc, _ => simp at hc
  | [_, _], hc, _ => simp at hc
  | [_, _, _], hc, _ => simp at hc

/-- Every input that timeParse accepts has the relaxed shape. -/
theorem timeParse_eq_some (value : List Char) (t : Time) (h : timeParse value = some t) :
    looseShape value := by
  unfold timeParse at h
  simp only [ite_none_eq_some, Option.bind_eq_some] at h
  obtain ⟨hc0, year, hyear, v1, hv1, month, hmonth, hc1, v2, hv2, day, hday, v3, hv3, hour,
    hhour, hc2, v4, hv4, min, hmin, hc3, v5, hv5, sec, hsec, hc4, hc5, nsec, hnsec, v6, hv6,
    hc6, hc7, _⟩ := h
  obtain ⟨y1, y2, y3, y4, hvalue, hydig, hyval⟩ := year_eq_some value year hc0 hyear
  have e1 := skip_eq_some _ _ _ hv1
  obtain ⟨m1, m2, e2, hm1, hm2, hmval⟩ := getnum_fixed_eq_some _ _ hmonth
  have e3 := skip_eq_some _ _ _ hv2
  obtain ⟨d1, d2, e4, hd1, hd2, hdval⟩ := getnum_fixed_eq_some _ _ hday
  have e5 := skip_eq_some _ _ _ hv3
  have e7 := skip_eq_some _ _ _ hv4
  obtain ⟨n1, n2, e8, hn1, hn2, hnval⟩ := getnum_fixed_eq_some _ _ hmin
  have e9 := skip_eq_some _ _ _ hv5
  obtain ⟨s1, s2, e10, hs1, hs2, hsval⟩ := getnum_fixed_eq_some _ _ hsec
  obtain ⟨sep, f1, f2, f3, rest, e11, hsep, hf1, hf2, hf3⟩ :=
    parseNanoseconds_eq_some _ nsec hc5 hnsec
  have e12 := skip_eq_some _ _ _ hv6
  have e13 : v6 = [] := by
    cases v6 with
    | nil => rfl
    | cons x xs => simp at hc6
  rw [e11] at e12
  simp only [List.drop_succ_cons, List.drop_zero] at e12
  have hdig : ∀ c ∈ [y1, y2, y3, y4, m1, m2, d1, d2, n1, n2, s1, s2, f2, f3],
      c.isDigit = true := by
    intro c hc
    simp only [List.mem_cons, List.mem_singleton, List.not_mem_nil, or_false] at hc
    rcases hc with rfl | rfl | rfl | rfl | rfl | rfl | rfl | rfl | rfl | rfl | rfl | rfl | rfl | rfl
    · exact hydig _ (by simp)
    · exact hydig _ (by simp)
    · exact hydig _ (by simp)
    · exact hydig _ (by simp)
    all_goals assumption
  have hday' : 1 ≤ digitVal d1 * 10 + digitVal d2 ∧
      digitVal d1 * 10 + digitVal d2 ≤
        daysIn (digitVal m1 * 10 + digitVal m2)
          ((((digitVal y1 * 10 + digitVal y2) * 10 + digitVal y3) * 10 + digitVal y4 : Nat)
            : Int) := by
    simp only [Bool.or_eq_true, decide_eq_true_eq, not_or, not_lt, gt_iff_lt] at hc7
    rw [hdval, hmval, hyval] at hc7
    exact hc7
  have hmonth' : 1 ≤ digitVal m1 * 10 + digitVal m2 ∧ digitVal m1 * 10 + digitVal m2 ≤ 12 := by
    simp only [Bool.or_eq_true, decide_eq_true_eq, not_or, not_lt, not_le] at hc1
    rw [hmval] at hc1
    omega
  rcases getnum_eq_some _ _ _ hhour with ⟨h1, h2, e6, hh1, hh2, hhval⟩ | ⟨_, h1, e6, hh1, hhval⟩
  · refine ⟨y1, y2, y3, y4, m1, m2, d1, d2, n1, n2, s1, s2, sep, f1, f2, f3, [h1, h2], ?_,
      hdig, Or.inr rfl, ?_, hsep, hf1, hmonth', hday', ?_, ?_, ?_⟩
    · rw [hvalue, e1, e2, e3, e4, e5, e6, e7, e8, e9, e10, e11, e12, e13]
      rfl
    · intro c hc
      simp only [List.mem_cons, List.mem_singleton, List.not_mem_nil, or_false] at hc
      rcases hc with rfl | rfl <;> assumption
    · simp only [numVal, List.foldl_cons, List.foldl_nil, Nat.zero_mul, Nat.zero_add]
      omega
    · omega
    · omega
  · refine ⟨y1, y2, y3, y4, m1, m2, d1, d2, n1, n2, s1, s2, sep, f1, f2, f3, [h1], ?_,
      hdig, Or.inl rfl, ?_, hsep, hf1, hmonth', hday', ?_, ?_, ?_⟩
    · rw [hvalue, e1, e2, e3, e4, e5, e6, e7, e8, e9, e10, e11, e12, e13]
      rfl
    · intro c hc
      simp only [List.mem_singleton] at hc
      rw [hc]; exact hh1
    · simp only [numVal, List.foldl_cons, List.foldl_nil, Nat.zero_mul, Nat.zero_add]
      omega
    · omega
    · omega


/-- An input of the relaxed shape has 23 or 24 characters. -/
theorem looseShape_length (s : List Char) (h : looseShape s) :
    s.length = 23 ∨ s.length = 24 := by
  obtain ⟨y1, y2, y3, y4, m1, m2, d1, d2, n1, n2, s1, s2, sep, f1, f2, f3, hour, hs, _, hlen,
    _⟩ := h
  rw [hs]
  simp only [List.length_append, List.length_cons, List.length_nil]
  omega

/-- The function getnum on one digit followed by a colon, not fixed. -/
theorem getnum_one_digit (a : Char) (rest : List Char) (ha : a.isDigit = true) :
    getnum (a :: ':' :: rest) false = some (digitVal a, ':' :: rest) := by
  have hcolon : (':' : Char).isDigit = false := by decide
  simp [getnum, isDigit, ha, hcolon]

/-- The function atoi on a plus sign and two digits. -/
theorem atoi_plus_two_digits (b c : Char) (hb : b.isDigit = true) (hc : c.isDigit = true) :
    atoi ['+', b, c] = some ((digitVal b * 10 + digitVal c : Nat) : Int) := by
  have h2 := digitVal_le b hb
  unfold atoi
  simp only [List.head?_cons, or_true, if_true, List.drop_succ_cons, List.drop_zero]
  rw [leadingInt_digit b _ 0 hb (by omega), leadingInt_digit c _ _ hc (by omega)]
  simp [leadingInt]

/-- The function parseNanoseconds accepts a period or comma followed by three
digits, by a plus sign and two digits, or by `-00`. -/
theorem parseNanoseconds_accepts (sep f1 f2 f3 : Char) (rest : List Char)
    (hsep : sep = '.' ∨ sep = ',')
    (hf1 : f1.isDigit = true ∨ f1 = '+' ∨ (f1 = '-' ∧ f2 = '0' ∧ f3 = '0'))
    (hf2 : f2.isDigit = true) (hf3 : f3.isDigit = true) :
    ∃ ns, parseNanoseconds (sep :: f1 :: f2 :: f3 :: rest) 4 = some ns := by
  have hatoi : ∃ n : Nat, atoi [f1, f2, f3] = some (n : Int) := by
    rcases hf1 with hd | hp | ⟨hm, h2, h3⟩
    · exact ⟨_, atoi_three_digits f1 f2 f3 hd hf2 hf3⟩
    · subst hp
      exact ⟨_, atoi_plus_two_digits f2 f3 hf2 hf3⟩
    · subst hm h2 h3
      exact ⟨0, by decide⟩
  obtain ⟨n, hn⟩ := hatoi
  have hnn : ¬ ((n : Int) < 0) := by omega
  refine ⟨(n : Int) * 10 ^ 6, ?_⟩
  simp only [parseNanoseconds, List.take_succ_cons, List.take_zero, List.drop_succ_cons,
    List.drop_zero, hn, hsep, decide_True, Bool.not_true, Bool.false_eq_true, if_false, hnn]

/-- Every input of the relaxed shape is accepted by timeParse, and the time
prints as the first ten characters of the input. -/
theorem timeParse_of_looseShape (value : List Char) (h : looseShape value) :
    ∃ t, timeParse value = some t ∧ timeFormat t = String.mk (value.take 10) := by
  obtain ⟨y1, y2, y3, y4, m1, m2, d1, d2, n1, n2, s1, s2, sep, f1, f2, f3, hour, hvalue,
    hdigits, hlen, hhour, hsep, hf1, hmonth, hday, hhval, hmin, hsec⟩ := h
  simp only [List.mem_cons, List.mem_singleton, List.not_mem_nil, or_false, forall_eq_or_imp,
    forall_eq] at hdigits
  obtain ⟨hy1, hy2, hy3, hy4, hm1, hm2, hd1, hd2, hn1, hn2, hs1, hs2, hf2, hf3⟩ := hdigits
  obtain ⟨ns, hns⟩ := parseNanoseconds_accepts sep f1 f2 f3 ['Z'] hsep hf1 hf2 hf3
  have c1 : (decide (digitVal m1 * 10 + digitVal m2 ≤ 0) ||
      decide (12 < digitVal m1 * 10 + digitVal m2)) = false := by
    simp only [Bool.or_eq_false_iff, decide_eq_false_iff_not]
    omega
  have c3 : ¬ (60 ≤ digitVal n1 * 10 + digitVal n2) := by omega
  have c4 : ¬ (60 ≤ digitVal s1 * 10 + digitVal s2) := by omega
  have c5 : (decide (digitVal d1 * 10 + digitVal d2 < 1) ||
      decide (digitVal d1 * 10 + digitVal d2 >
        daysIn (digitVal m1 * 10 + digitVal m2)
          ((((digitVal y1 * 10 + digitVal y2) * 10 + digitVal y3) * 10 + digitVal y4 : Nat)
            : Int))) = false := by
    simp only [Bool.or_eq_false_iff, decide_eq_false_iff_not]
    omega
  have hgethour : getnum (hour ++ [':', n1, n2, ':', s1, s2, sep, f1, f2, f3, 'Z']) false =
      some (numVal hour, [':', n1, n2, ':', s1, s2, sep, f1, f2, f3, 'Z']) := by
    match hour, hlen, hhour with
    | [a], _, hh =>
      rw [List.singleton_append, getnum_one_digit a _ (hh a (by simp))]
      simp [numVal]
    | [a, b], _, hh =>
      have ha := hh a (by simp)
      have hb := hh b (by simp)
      show getnum (a :: b :: _) false = _
      rw [getnum_two_digits a b _ false ha hb]
      simp [numVal]
    | [], hlen, _ => simp at hlen
    | _ :: _ :: _ :: _, hlen, _ => simp at hlen
  have c2 : ¬ (24 ≤ numVal hour) := by omega
  have hparse : timeParse value =
      some { year := ((((digitVal y1 * 10 + digitVal y2) * 10 + digitVal y3) * 10 + digitVal y4
                        : Nat) : Int)
             month := digitVal m1 * 10 + digitVal m2
             day := digitVal d1 * 10 + digitVal d2
             hour := numVal hour
             min := digitVal n1 * 10 + digitVal n2
             sec := digitVal s1 * 10 + digitVal s2
             nsec := ns } := by
    rw [hvalue]
    unfold timeParse
    simp only [List.length_cons, List.length_nil, List.length_append, isDigit,
      List.cons_append, List.nil_append, List.get?_cons_zero, hy1,
      List.take_succ_cons, List.take_zero, List.drop_succ_cons, List.drop_zero,
      atoi_four_digits y1 y2 y3 y4 hy1 hy2 hy3 hy4, Nat.reduceAdd, Nat.reduceLT,
      decide_False, Bool.not_true, Bool.or_false, Bool.false_eq_true, if_false,
      Option.some_bind, skip_cons_self, c1, c2, c3, c4, c5,
      getnum_two_digits m1 m2 _ true hm1 hm2, getnum_two_digits d1 d2 _ true hd1 hd2,
      hgethour, getnum_two_digits n1 n2 _ true hn1 hn2,
      getnum_two_digits s1 s2 _ true hs1 hs2, hns, ne_eq, not_true_eq_false]
    rw [if_neg]
    simp only [decide_eq_true_eq]
    omega
  refine ⟨_, hparse, ?_⟩
  rw [hvalue]
  unfold timeFormat
  simp only [Int.toNat_ofNat, appendInt_four y1 y2 y3 y4 hy1 hy2 hy3 hy4,
    appendInt_two m1 m2 hm1 hm2, appendInt_two d1 d2 hd1 hd2, List.cons_append,
    List.nil_append, List.append_assoc, List.take_succ_cons, List.take_zero]

/-- An input of the relaxed shape formats to its first ten characters. -/
theorem formatDateString_of_looseShape (s : String) (h : looseShape s.data) :
    formatDateString s = some (String.mk (s.data.take 10)) := by
  obtain ⟨t, ht, hfmt⟩ := timeParse_of_looseShape s.data h
  unfold formatDateString
  rw [ht]
  show some (timeFormat t) = _
  rw [hfmt]

/-- C11 (counterexamples): a one-digit hour, a comma before the fraction and
a signed fraction are not of the strict shape, yet `formatDateString` returns
the date instead of failing. -/
theorem formatDateString_not_strict :
    (strictShape "2023-05-01T1:00:00.000Z".data = false ∧
      formatDateString "2023-05-01T1:00:00.000Z" = some "2023-05-01") ∧
    (strictShape "2023-05-01T12:00:00,000Z".data = false ∧
      formatDateString "2023-05-01T12:00:00,000Z" = some "2023-05-01") ∧
    (strictShape "2023-05-01T12:00:00.+00Z".data = false ∧
      formatDateString "2023-05-01T12:00:00.+00Z" = some "2023-05-01") := by
  refine ⟨⟨by decide, by decide⟩, ⟨by decide, by decide⟩, by decide, by decide⟩

/-- C11 (amended): `formatDateString` fails exactly on the inputs that are
not of the relaxed shape: four-digit year, `-`, two-digit month in 1..12, `-`,
two-digit day that exists in the month, `T`, one- or two-digit hour below 24,
`:`, two-digit minute, `:`, two-digit second (both below 60), `.` or `,`, a
fraction of three characters that is three digits, `+` and two digits, or
`-00`, then the literal `Z`; every input of that shape gives its first ten
characters. -/
theorem formatDateString_fails_iff (s : String) :
    (formatDateString s = none ↔ ¬ looseShape s.data) ∧
    (looseShape s.data → formatDateString s = some (String.mk (s.data.take 10))) := by
  refine ⟨⟨?_, ?_⟩, formatDateString_of_looseShape s⟩
  · intro hnone hshape
    rw [formatDateString_of_looseShape s hshape] at hnone
    simp at hnone
  · intro h
    unfold formatDateString
    cases hp : timeParse s.data with
    | none => rfl
    | some t => exact absurd (timeParse_eq_some s.data t hp) h

/-- Witness for C11 (amended): an input without fraction is not of the relaxed
shape and fails, and the input with a one-digit hour is of the relaxed shape
and gives its date. -/
theorem formatDateString_fails_iff_witness :
    (¬ looseShape "2023-05-01T12:00:00Z".data ∧
      formatDateString "2023-05-01T12:00:00Z" = none) ∧
    (looseShape "2023-05-01T1:00:00.000Z".data ∧
      formatDateString "2023-05-01T1:00:00.000Z" = some "2023-05-01") :=
  have hshape : ¬ looseShape "2023-05-01T12:00:00Z".data := fun h =>
    absurd (looseShape_length _ h) (by decide)
  have hloose : looseShape "2023-05-01T1:00:00.000Z".data :=
    ⟨'2', '0', '2', '3', '0', '5', '0', '1', '0', '0', '0', '0', '.', '0', '0', '0', ['1'],
      rfl, by decide, Or.inl rfl, by decide, Or.inl rfl, Or.inl (by decide), by decide,
      by decide, by decide, by decide, by decide⟩
  ⟨⟨hshape, (formatDateString_fails_iff "2023-05-01T12:00:00Z").1.mpr hshape⟩,
    hloose, (formatDateString_fails_iff "2023-05-01T1:00:00.000Z").2 hloose⟩

/-- A minus sign in the fraction is accepted only as `-00`: `.-01` fails,
`.-00` gives the date. -/
theorem formatDateString_negative_fraction :
    formatDateString "2023-05-01T12:00:00.-01Z" = none ∧
    formatDateString "2023-05-01T12:00:00.-00Z" = some "2023-05-01" := by
  refine ⟨by decide, by decide⟩

/-- The examples of C11 that do fail: a missing fraction, a two-digit fraction,
a missing `Z`, a numeric offset, a month 13 and a day 30 in February. -/
theorem formatDateString_rejects_examples :
    formatDateString "2023-05-01T12:00:00Z" = none ∧
    formatDateString "2023-05-01T12:00:00.00Z" = none ∧
    formatDateString "2023-05-01T12:00:00.000" = none ∧
    formatDateString "2023-05-01T12:00:00.000+01:00" = none ∧
    formatDateString "2023-13-01T12:00:00.000Z" = none ∧
    formatDateString "2023-02-30T12:00:00.000Z" = none := by
  refine ⟨by decide, by decide, by decide, by decide, by decide, by decide⟩

/-- The functions parseCustomers and parseCustomer when every creation date
parses: the concatenation of the blocks, in order. -/
theorem parseCustomers_valid (cs : List Customer)
    (h : ∀ c ∈ cs, ∀ t ∈ c.Transactions, (formatDateString t.CreationDate).isSome = true) :
    parseCustomers cs = some (cs.flatMap fun c => (parseCustomer c).getD []) ∧
    parseCustomers cs =
      some (cs.flatMap fun c => c.Transactions.flatMap fun t => (parseTransaction c t).getD []) := by
  have hcust : ∀ c ∈ cs, parseCustomer c =
      some (c.Transactions.flatMap fun t => (parseTransaction c t).getD []) :=
    fun c hc => parseCustomer_eq_flatMap c (h c hc)
  have hall : parseCustomers cs = some (cs.flatMap fun c => (parseCustomer c).getD []) := by
    unfold parseCustomers
    rw [foldlM_append_blocks parseCustomer cs []]
    · simp
    · intro c hc
      rw [hcust c hc]; rfl
  refine ⟨hall, ?_⟩
  rw [hall]
  congr 1
  apply List.flatMap_congr
  intro c hc
  rw [hcust c hc]; rfl

/-- The dates of the customer of the end-to-end example parse. -/
theorem janeDoe_dates_valid :
    ∀ c ∈ [janeDoe], ∀ t ∈ c.Transactions,
      (formatDateString t.CreationDate).isSome = true := by
  intro c hc t ht
  rw [List.mem_singleton] at hc
  subst hc
  have ht2 : t = order42 := by simpa [janeDoe] using ht
  subst ht2
  decide

/-- The records `printLineItems` writes: the header, then one record per line
item in input order. -/
theorem printLineItems_eq (ls : List LineItem) :
    printLineItems ls = csvHeader :: ls.map csvRecord := by
  unfold printLineItems
  rw [foldl_append_blocks (fun l => [csvRecord l]) ls [csvHeader]]
  have hmap : (ls.flatMap fun l => [csvRecord l]) = ls.map csvRecord := by
    induction ls with
    | nil => rfl
    | cons l ls ih => simp [ih]
  rw [hmap]
  rfl

/-- The character of a decimal digit is a digit. -/
theorem isDigit_ofNat_digit (d : Nat) (h : d < 10) : (Char.ofNat (48 + d)).isDigit = true := by
  have hall : ∀ k, k < 10 → (Char.ofNat (48 + k)).isDigit = true := by decide
  exact hall d h

/-- The `%.2f` rendering of a finite amount: optional minus sign, a decimal
number, the point, exactly two digits. -/
theorem Float32.format2_finite (neg : Bool) (code : Fin 2139095040) :
    ∃ (k : Nat) (a b : Char), a.isDigit = true ∧ b.isDigit = true ∧
      (Float32.finite neg code).format2 =
        (if neg then "-" else "") ++ toString k ++ "." ++ String.mk [a, b] := by
  unfold Float32.format2 Float32.twoDigits
  refine ⟨_, _, _, ?_, ?_, rfl⟩
  · exact isDigit_ofNat_digit _ (Nat.mod_lt _ (by decide))
  · exact isDigit_ofNat_digit _ (Nat.mod_lt _ (by decide))

/-- C12 (counterexample): for a line item whose amount is NaN the last field
of its record is "NaN", which has no decimal point and no digits. -/
theorem printLineItems_nan :
    printLineItems [nanItem] =
      [csvHeader,
       ["42", "Doe, Jane", "2023-05-01", "200.100 Undeposited Funds", "Visa", "Order: 42",
        "2023-05-01", "Program Income:BO Income", "NaN"]] := by
  decide

/-- C12 (amended): for every list of line items `printLineItems` writes
`len + 1` records: the header with the nine titles, then one nine-field record
per line item in input order, with the fields decimal id, customer, receipt
date, deposit account, payment method, memo, service date, account label and
the `%.2f` rendering of the amount; for every finite amount that rendering is
an optional minus sign, a decimal number, the point and exactly two digits. -/
theorem printLineItems_records (ls : List LineItem) :
    printLineItems ls =
      ["Sales Receipt No", "Customer", "Sales Receipt Date", "Deposit To", "Payment Method",
        "Memo", "Line Item Service Date", "Line Item", "Line Item Amount"] ::
        ls.map (fun l =>
          [toString l.TransactionId, l.Customer, l.ReceiptDate, l.DepositTo, l.PaymentMethod,
            l.Memo, l.LineItemDate, l.LineItem, l.Amount.format2]) ∧
    (printLineItems ls).length = ls.length + 1 ∧
    (∀ r ∈ printLineItems ls, r.length = 9) ∧
    ∀ l ∈ ls, ∀ (neg : Bool) (code : Fin 2139095040), l.Amount = Float32.finite neg code →
      ∃ (k : Nat) (a b : Char), a.isDigit = true ∧ b.isDigit = true ∧
        l.Amount.format2 = (if neg then "-" else "") ++ toString k ++ "." ++ String.mk [a, b] := by
  have heq := printLineItems_eq ls
  refine ⟨heq, ?_, ?_, ?_⟩
  · rw [heq]; simp
  · intro r hr
    rw [heq] at hr
    rcases List.mem_cons.mp hr with rfl | hr
    · rfl
    · obtain ⟨l, _, rfl⟩ := List.mem_map.mp hr
      rfl
  · intro l _ neg code hl
    rw [hl]
    exact Float32.format2_finite neg code

/-- Witness for C12 (amended) at the donation line of the end-to-end example. -/
theorem printLineItems_records_witness :
    (specLine janeDoe order42 "2023-05-01" "Credit Card Fees" Float32.negThreeAndHalf).Amount =
      Float32.finite true ⟨1080033280, by decide⟩ ∧
    ∃ (k : Nat) (a b : Char), a.isDigit = true ∧ b.isDigit = true ∧
      (specLine janeDoe order42 "2023-05-01" "Credit Card Fees"
          Float32.negThreeAndHalf).Amount.format2 =
        (if true then "-" else "") ++ toString k ++ "." ++ String.mk [a, b] :=
  ⟨rfl, (printLineItems_records
    [specLine janeDoe order42 "2023-05-01" "Credit Card Fees" Float32.negThreeAndHalf]).2.2.2
      _ (List.mem_singleton.mpr rfl) true ⟨1080033280, by decide⟩ rfl⟩

/-- C13 (counterexample): for the transaction of the end-to-end example,
whose only ticket has price 0, `parseTransaction` emits on account of that
ticket the "Program Income:BO Income" line with amount 0 and then the
"Ticketing Fees" line. -/
theorem parseTransaction_free_ticket_income_line :
    order42.Tickets = [{ Price := Float32.zero }] ∧
    (parseTransaction janeDoe order42).map (List.drop 2) =
      some [specLine janeDoe order42 "2023-05-01" "Program Income:BO Income" Float32.zero,
            specLine janeDoe order42 "2023-05-01" "Ticketing Fees" Float32.negOneAndHalf] ∧
    Float32.zero.isZero = true := by
  refine ⟨rfl, by decide, rfl⟩

/-- C13 (amended): for a transaction whose creation date parses and every
ticket in it with price 0, `parseTransaction` emits on account of that ticket
exactly two line items, next to each other: the "Program Income:BO Income"
line with the price (zero) as amount, then the "Ticketing Fees" line with
amount -1.5; before them come the donation lines and the blocks of the earlier
tickets, after them the blocks of the later tickets. -/
theorem parseTransaction_free_ticket (c : Customer) (t : Transaction)
    (earlier later : List Ticket) (ticket : Ticket)
    (hdate : (formatDateString t.CreationDate).isSome = true)
    (htickets : t.Tickets = earlier ++ ticket :: later)
    (hzero : ticket.Price.isZero = true) :
    ∃ date before after,
      formatDateString t.CreationDate = some date ∧
      parseTransaction c { t with Tickets := earlier } = some before ∧
      parseTransaction c { t with Donation := Float32.zero, Tickets := later } = some after ∧
      parseTransaction c t =
        some (before ++
          [specLine c t date "Program Income:BO Income" ticket.Price,
           specLine c t date "Ticketing Fees" Float32.negOneAndHalf] ++ after) := by
  obtain ⟨date, hd⟩ := Option.isSome_iff_exists.mp hdate
  refine ⟨date, _, _, hd, parseTransaction_some c { t with Tickets := earlier } date hd,
    parseTransaction_some c { t with Donation := Float32.zero, Tickets := later } date hd, ?_⟩
  rw [parseTransaction_some c t date hd, htickets]
  have hblock : specTicketBlock c t date ticket =
      [specLine c t date "Program Income:BO Income" ticket.Price,
       specLine c t date "Ticketing Fees" Float32.negOneAndHalf] := by
    simp [specTicketBlock, hzero]
  have hnil : specDonationLines c { t with Donation := Float32.zero, Tickets := later } date = [] := by
    simp [specDonationLines, Float32.isZero, Float32.zero]
  rw [hnil]
  simp only [List.flatMap_append, List.flatMap_cons, hblock, List.nil_append,
    List.append_assoc]
  rfl

/-- Witness for C13 (amended) at the free ticket of the end-to-end example. -/
theorem parseTransaction_free_ticket_witness :
    (formatDateString order42.CreationDate).isSome = true ∧
    order42.Tickets = [] ++ ({ Price := Float32.zero } : Ticket) :: [] ∧
    ({ Price := Float32.zero } : Ticket).Price.isZero = true ∧
    ∃ date before after,
      formatDateString order42.CreationDate = some date ∧
      parseTransaction janeDoe { order42 with Tickets := [] } = some before ∧
      parseTransaction janeDoe { order42 with Donation := Float32.zero, Tickets := [] } =
        some after ∧
      parseTransaction janeDoe order42 =
        some (before ++
          [specLine janeDoe order42 date "Program Income:BO Income"
              ({ Price := Float32.zero } : Ticket).Price,
           specLine janeDoe order42 date "Ticketing Fees" Float32.negOneAndHalf] ++ after) :=
  ⟨by decide, rfl, rfl,
    parseTransaction_free_ticket janeDoe order42 [] [] { Price := Float32.zero } (by decide)
      rfl rfl⟩

/-- An aborting left fold that appends the block of each element fails when
some element has no block. -/
theorem foldlM_append_blocks_none {α β : Type} (f : α → Option (List β)) (xs : List α)
    (acc : List β) (h : ∃ x ∈ xs, f x = none) :
    xs.foldlM (fun ls x => do
      let r ← f x
      pure (ls ++ r)) acc = none := by
  induction xs generalizing acc with
  | nil =>
    obtain ⟨x, hx, _⟩ := h
    simp at hx
  | cons y ys ih =>
    rw [List.foldlM_cons]
    cases hy : f y with
    | none => rfl
    | some r =>
      obtain ⟨x, hx, hfx⟩ := h
      rcases List.mem_cons.mp hx with rfl | hx
      · rw [hy] at hfx
        simp at hfx
      · exact ih _ ⟨x, hx, hfx⟩

/-- The function parseTransaction fails exactly when the date does. -/
theorem parseTransaction_isSome (c : Customer) (t : Transaction) :
    (parseTransaction c t).isSome = (formatDateString t.CreationDate).isSome := by
  rw [parseTransaction_eq]
  cases formatDateString t.CreationDate <;> rfl

/-- The function parseCustomer fails when one of its transactions has a date
that does not parse. -/
theorem parseCustomer_none (c : Customer) (t : Transaction) (ht : t ∈ c.Transactions)
    (hbad : formatDateString t.CreationDate = none) : parseCustomer c = none := by
  unfold parseCustomer
  apply foldlM_append_blocks_none (parseTransaction c)
  refine ⟨t, ht, ?_⟩
  have h := parseTransaction_isSome c t
  rw [hbad] at h
  cases hp : parseTransaction c t with
  | none => rfl
  | some ls => rw [hp] at h; simp at h

/-- C14: `parseCustomers cs` succeeds if and only if `formatDateString`
succeeds on the creation date of every transaction of every customer in `cs`;
in particular a transaction with zero donation and no tickets whose creation
date does not parse makes `parseCustomers` fail. -/
theorem parseCustomers_isSome_iff (cs : List Customer) :
    ((parseCustomers cs).isSome = true ↔
      ∀ c ∈ cs, ∀ t ∈ c.Transactions, (formatDateString t.CreationDate).isSome = true) ∧
    (∀ c ∈ cs, ∀ t ∈ c.Transactions, t.Donation.isZero = true → t.Tickets = [] →
      formatDateString t.CreationDate = none → parseCustomers cs = none) := by
  have hfail : ∀ c ∈ cs, ∀ t ∈ c.Transactions,
      formatDateString t.CreationDate = none → parseCustomers cs = none := by
    intro c hc t ht hbad
    unfold parseCustomers
    exact foldlM_append_blocks_none parseCustomer cs [] ⟨c, hc, parseCustomer_none c t ht hbad⟩
  refine ⟨⟨?_, ?_⟩, ?_⟩
  · intro hsome c hc t ht
    cases hd : formatDateString t.CreationDate with
    | some d => rfl
    | none =>
      rw [hfail c hc t ht hd] at hsome
      simp at hsome
  · intro hall
    rw [(parseCustomers_valid cs hall).1]
    rfl
  · intro c hc t ht _ _ hbad
    exact hfail c hc t ht hbad

/-- Witness for C14: one customer whose only transaction has no donation, no
ticket and the creation date "yesterday". -/
theorem parseCustomers_isSome_iff_witness :
    emptyBadDate.Donation.isZero = true ∧ emptyBadDate.Tickets = [] ∧
    formatDateString emptyBadDate.CreationDate = none ∧
    parseCustomers [{ FirstName := "A", LastName := "B", Transactions := [emptyBadDate] }] =
      none :=
  ⟨rfl, rfl, by decide,
    (parseCustomers_isSome_iff
      [{ FirstName := "A", LastName := "B", Transactions := [emptyBadDate] }]).2
      _ (List.mem_singleton.mpr rfl) emptyBadDate (List.mem_singleton.mpr rfl) rfl rfl
      (by decide)⟩

/-- The length of a concatenation of blocks is the sum of the block lengths. -/
theorem length_flatMap_sum {α β : Type} (f : α → List β) (xs : List α) :
    (xs.flatMap f).length = (xs.map fun x => (f x).length).sum := by
  induction xs with
  | nil => rfl
  | cons x xs ih => simp [ih]

/-- The number of lines of the ticket blocks. -/
theorem length_ticket_blocks (c : Customer) (t : Transaction) (date : String)
    (ts : List Ticket) :
    (ts.flatMap (specTicketBlock c t date)).length =
      ts.length + ts.countP (fun ticket => ticket.Price.isZero) := by
  induction ts with
  | nil => rfl
  | cons ticket ts ih =>
    rw [List.flatMap_cons, List.length_append, ih, List.countP_cons, List.length_cons]
    unfold specTicketBlock
    cases hz : ticket.Price.isZero <;> simp <;> omega

/-- The number of line items of a transaction whose date parses. -/
theorem parseTransaction_length (c : Customer) (t : Transaction)
    (hdate : (formatDateString t.CreationDate).isSome = true) :
    ∃ ls, parseTransaction c t = some ls ∧ ls.length = lineCount t := by
  obtain ⟨date, hd⟩ := Option.isSome_iff_exists.mp hdate
  refine ⟨_, parseTransaction_some c t date hd, ?_⟩
  rw [List.length_append, length_ticket_blocks]
  unfold lineCount specDonationLines
  cases hz : t.Donation.isZero
  all_goals simp
  all_goals omega

/-- C15: when every creation date parses, `parseTransaction c t` has
(2 if the donation is not zero, else 0) + number of tickets + number of
tickets of price zero line items, and the length of `parseCustomers cs` is the
sum of this count over all transactions of all customers; a customer without
transactions contributes nothing. -/
theorem parseCustomers_length (cs : List Customer)
    (h : ∀ c ∈ cs, ∀ t ∈ c.Transactions, (formatDateString t.CreationDate).isSome = true) :
    (∀ c ∈ cs, ∀ t ∈ c.Transactions, ∃ ls, parseTransaction c t = some ls ∧
      ls.length = (if t.Donation.isZero then 0 else 2) + t.Tickets.length +
        t.Tickets.countP (fun ticket => ticket.Price.isZero)) ∧
    (∃ all, parseCustomers cs = some all ∧
      all.length = (cs.map fun c => (c.Transactions.map lineCount).sum).sum) ∧
    (∀ c ∈ cs, c.Transactions = [] → parseCustomer c = some []) := by
  refine ⟨fun c hc t ht => parseTransaction_length c t (h c hc t ht), ?_, ?_⟩
  · refine ⟨_, (parseCustomers_valid cs h).2, ?_⟩
    rw [length_flatMap_sum]
    congr 1
    apply List.map_congr_left
    intro c hc
    rw [length_flatMap_sum]
    congr 1
    apply List.map_congr_left
    intro t ht
    obtain ⟨ls, hls, hlen⟩ := parseTransaction_length c t (h c hc t ht)
    rw [hls]
    exact hlen
  · intro c _ hnil
    unfold parseCustomer
    rw [hnil]
    rfl

/-- Witness for C15 at the customer of the end-to-end example: four line
items. -/
theorem parseCustomers_length_witness :
    (∀ c ∈ [janeDoe], ∀ t ∈ c.Transactions,
      (formatDateString t.CreationDate).isSome = true) ∧
    ((∀ c ∈ [janeDoe], ∀ t ∈ c.Transactions, ∃ ls, parseTransaction c t = some ls ∧
      ls.length = (if t.Donation.isZero then 0 else 2) + t.Tickets.length +
        t.Tickets.countP (fun ticket => ticket.Price.isZero)) ∧
    (∃ all, parseCustomers [janeDoe] = some all ∧
      all.length = ([janeDoe].map fun c => (c.Transactions.map lineCount).sum).sum) ∧
    (∀ c ∈ [janeDoe], c.Transactions = [] → parseCustomer c = some [])) :=
  ⟨janeDoe_dates_valid, parseCustomers_length [janeDoe] janeDoe_dates_valid⟩

/-- An aborting left fold that appends blocks, started from `acc`, is the fold
started from the empty list with `acc` put in front. -/
theorem foldlM_append_blocks_acc {α β : Type} (f : α → Option (List β)) (xs : List α) :
    ∀ acc : List β,
      xs.foldlM (fun ls x => do
        let r ← f x
        pure (ls ++ r)) acc =
      (xs.foldlM (fun ls x => do
        let r ← f x
        pure (ls ++ r)) []).map fun rest => acc ++ rest := by
  induction xs with
  | nil => intro acc; simp
  | cons x xs ih =>
    intro acc
    rw [List.foldlM_cons, List.foldlM_cons]
    cases hx : f x with
    | none => rfl
    | some r =>
      show List.foldlM _ (acc ++ r) xs = Option.map _ (List.foldlM _ ([] ++ r) xs)
      rw [ih (acc ++ r), ih ([] ++ r), Option.map_map]
      congr 1
      funext rest
      simp [List.append_assoc]

/-- The function parseCustomers on a concatenation, failure included. -/
theorem parseCustomers_append (a b : List Customer) :
    parseCustomers (a ++ b) =
      (parseCustomers a).bind fun xa => (parseCustomers b).map fun xb => xa ++ xb := by
  unfold parseCustomers
  rw [List.foldlM_append]
  cases ha : List.foldlM (fun ls c => do
      let r ← parseCustomer c
      pure (ls ++ r)) [] a with
  | none => rfl
  | some xa =>
    show List.foldlM _ xa b = _
    rw [foldlM_append_blocks_acc parseCustomer b xa]
    rfl

/-- C16: `parseCustomers` is a list homomorphism: the empty list gives the
empty list, and for customer lists `a` and `b` with valid dates
`parseCustomers (a ++ b)` is `parseCustomers a` followed by
`parseCustomers b`; hence transforming the pages one at a time and
concatenating gives the line items of the accumulated customer list. -/
theorem parseCustomers_homomorphism (a b : List Customer) (pages : List (List Customer))
    (ha : ∀ c ∈ a, ∀ t ∈ c.Transactions, (formatDateString t.CreationDate).isSome = true)
    (hb : ∀ c ∈ b, ∀ t ∈ c.Transactions, (formatDateString t.CreationDate).isSome = true)
    (hpages : ∀ p ∈ pages, ∀ c ∈ p, ∀ t ∈ c.Transactions,
      (formatDateString t.CreationDate).isSome = true) :
    parseCustomers [] = some [] ∧
    (∃ xa xb, parseCustomers a = some xa ∧ parseCustomers b = some xb ∧
      parseCustomers (a ++ b) = some (xa ++ xb)) ∧
    parseCustomers pages.flatten =
      some (pages.flatMap fun p => (parseCustomers p).getD []) := by
  refine ⟨rfl, ?_, ?_⟩
  · have h1 := (parseCustomers_valid a ha).1
    have h2 := (parseCustomers_valid b hb).1
    refine ⟨_, _, h1, h2, ?_⟩
    rw [parseCustomers_append, h1, h2]
    rfl
  · induction pages with
    | nil => rfl
    | cons p ps ih =>
      have hp := (parseCustomers_valid p (hpages p (List.mem_cons_self p ps))).1
      have hps := ih (fun q hq => hpages q (List.mem_cons_of_mem p hq))
      rw [List.flatten_cons, parseCustomers_append, hp, hps, List.flatMap_cons, hp]
      rfl

/-- Witness for C16 at the pages of the sample endpoint. -/
theorem parseCustomers_homomorphism_witness :
    (∀ c ∈ [janeDoe], ∀ t ∈ c.Transactions,
      (formatDateString t.CreationDate).isSome = true) ∧
    (∀ p ∈ [[janeDoe], [janeDoe], []], ∀ c ∈ p, ∀ t ∈ c.Transactions,
      (formatDateString t.CreationDate).isSome = true) ∧
    (parseCustomers [] = some [] ∧
    (∃ xa xb, parseCustomers [janeDoe] = some xa ∧ parseCustomers [janeDoe] = some xb ∧
      parseCustomers ([janeDoe] ++ [janeDoe]) = some (xa ++ xb)) ∧
    parseCustomers [[janeDoe], [janeDoe], []].flatten =
      some ([[janeDoe], [janeDoe], []].flatMap fun p => (parseCustomers p).getD [])) :=
  have hjane : ∀ c ∈ [janeDoe], ∀ t ∈ c.Transactions,
      (formatDateString t.CreationDate).isSome = true :=
    janeDoe_dates_valid
  have hpages : ∀ p ∈ [[janeDoe], [janeDoe], []], ∀ c ∈ p, ∀ t ∈ c.Transactions,
      (formatDateString t.CreationDate).isSome = true := by
    intro p hp c hc
    simp only [List.mem_cons, List.mem_singleton, List.not_mem_nil, or_false] at hp
    rcases hp with rfl | rfl | rfl
    · exact hjane c hc
    · exact hjane c hc
    · simp at hc
  ⟨hjane, hpages, parseCustomers_homomorphism [janeDoe] [janeDoe] _ hjane hjane hpages⟩

/-- C17: two transactions that agree on id, donation, creation date, tender
type and tickets give the same result, whatever their totals. -/
theorem parseTransaction_total_irrelevant (c : Customer) (t u : Transaction)
    (hId : t.Id = u.Id) (hDonation : t.Donation = u.Donation)
    (hDate : t.CreationDate = u.CreationDate) (hTender : t.TenderType = u.TenderType)
    (hTickets : t.Tickets = u.Tickets) :
    parseTransaction c t = parseTransaction c u := by
  cases t
  cases u
  simp only at hId hDonation hDate hTender hTickets
  subst hId hDonation hDate hTender hTickets
  rw [parseTransaction_eq, parseTransaction_eq]
  rfl

/-- Witness for C17: the transaction of the end-to-end example with total 100
and with total -1.5. -/
theorem parseTransaction_total_irrelevant_witness :
    order42.Total ≠ ({ order42 with Total := Float32.negOneAndHalf } : Transaction).Total ∧
    parseTransaction janeDoe order42 =
      parseTransaction janeDoe { order42 with Total := Float32.negOneAndHalf } :=
  ⟨by decide,
    parseTransaction_total_irrelevant janeDoe order42
      { order42 with Total := Float32.negOneAndHalf } rfl rfl rfl rfl rfl⟩

end ShowTix
